import Mathlib

/- Shallow embedding of the task-manager server: the Sequelize data model
   (models and migration), the repositories, and the Express controllers
   (authController, taskController), with proofs of behavioural claims.
   Identifiers are UUID strings in the source; they are modelled as Nat with
   decidable equality. Timestamps and date-only values are modelled as Nat. -/

namespace GestionTaches

/-- Task status enumeration from the Tache model: A_FAIRE (TODO),
EN_COURS (IN_PROGRESS), TERMINEE (DONE). -/
inductive Statut where
  | A_FAIRE
  | EN_COURS
  | TERMINEE
  deriving DecidableEq, Repr

/-- Task priority enumeration from the Tache model. -/
inductive Priorite where
  | BASSE
  | MOYENNE
  | HAUTE
  | URGENTE
  deriving DecidableEq, Repr

/-- Row of the utilisateurs table (Utilisateur model). -/
structure Utilisateur where
  id : Nat
  email : String
  nom_affichage : String
  mot_de_passe_hash : String
  date_creation : Nat
  actif : Bool
  tentatives_echec : Nat
  deriving DecidableEq, Repr

/-- Row of the listes table (Liste model). -/
structure Liste where
  id : Nat
  nom : String
  couleur : String
  ordre : Nat
  utilisateur_id : Nat
  deriving DecidableEq, Repr

/-- Row of the taches table (Tache model). -/
structure Tache where
  id : Nat
  titre : String
  description : Option String
  statut : Statut
  priorite : Priorite
  date_echeance : Option Nat
  date_creation : Nat
  date_completion : Option Nat
  utilisateur_id : Nat
  liste_id : Option Nat
  deriving DecidableEq, Repr

/-- Row of the historique_modifications table (HistoriqueModification model). -/
structure HistoriqueModification where
  tache_id : Nat
  ancien_statut : Statut
  nouveau_statut : Statut
  date_modification : Nat
  deriving DecidableEq, Repr

/-- The relational database state: the four tables of the migration. -/
structure BaseDeDonnees where
  utilisateurs : List Utilisateur
  listes : List Liste
  taches : List Tache
  historiques : List HistoriqueModification
  deriving DecidableEq, Repr

/-- Configuration singleton (config/appConfig.js); only the
environment-independent constant fields are modelled. jwtExpiration is the
string 24h in the source, modelled as the number of hours. -/
structure AppConfig where
  jwtExpirationHeures : Nat
  bcryptSaltRounds : Nat
  maxLoginAttempts : Nat
  defaultPageLimit : Nat
  defaultPage : Nat
  deriving DecidableEq, Repr

/-- The unique AppConfig instance, with the constants of appConfig.js. -/
def appConfig : AppConfig :=
  { jwtExpirationHeures := 24
    bcryptSaltRounds := 10
    maxLoginAttempts := 3
    defaultPageLimit := 20
    defaultPage := 1 }

-- ==================== UtilisateurRepository ====================

/-- Utilisateur.findOne({ where: { email } }): first user whose stored email
equals the argument exactly. -/
def UtilisateurRepository.trouverParEmail (bd : BaseDeDonnees) (email : String) :
    Option Utilisateur :=
  bd.utilisateurs.find? (fun u => u.email == email)

/-- Utilisateur.findByPk(id). -/
def UtilisateurRepository.trouverParId (bd : BaseDeDonnees) (id : Nat) :
    Option Utilisateur :=
  bd.utilisateurs.find? (fun u => u.id == id)

/-- Utilisateur.create(donnees): inserts the row. -/
def UtilisateurRepository.creer (bd : BaseDeDonnees) (u : Utilisateur) :
    BaseDeDonnees × Utilisateur :=
  ({ bd with utilisateurs := bd.utilisateurs ++ [u] }, u)

/-- Utilisateur.increment(tentatives_echec, { where: { id } }). -/
def UtilisateurRepository.incrementerTentativesEchec (bd : BaseDeDonnees) (id : Nat) :
    BaseDeDonnees :=
  { bd with utilisateurs := bd.utilisateurs.map (fun u =>
      if u.id == id then { u with tentatives_echec := u.tentatives_echec + 1 } else u) }

/-- Utilisateur.update({ tentatives_echec: 0 }, { where: { id } }). -/
def UtilisateurRepository.reinitialiserTentativesEchec (bd : BaseDeDonnees) (id : Nat) :
    BaseDeDonnees :=
  { bd with utilisateurs := bd.utilisateurs.map (fun u =>
      if u.id == id then { u with tentatives_echec := 0 } else u) }

-- ==================== AuthController ====================

/-- Payload and validity of the JWT issued on login: jwt.sign({id, email},
secret, {expiresIn: 24h}). The cryptographic signature itself is supplied by
the external jsonwebtoken library and is outside the model. -/
structure Jeton where
  id : Nat
  email : String
  validiteHeures : Nat
  deriving DecidableEq, Repr

/-- Public user fields returned by register and login responses: exactly
id, email, nom_affichage, date_creation (never mot_de_passe_hash). -/
structure UtilisateurPublic where
  id : Nat
  email : String
  nom_affichage : String
  date_creation : Nat
  deriving DecidableEq, Repr

/-- Outcome of AuthController.login: 401 Identifiants invalides,
423 Compte verrouille, or 200 with token and public user. -/
inductive ResultatLogin where
  | identifiantsInvalides
  | compteVerrouille
  | connecte (jeton : Jeton) (utilisateur : UtilisateurPublic)
  deriving DecidableEq, Repr

/-- AuthController.login. The bcrypt.compare call of the external bcrypt
library is abstracted as the function argument comparer (password against
stored hash). The source tests the negative branch first
(if !motDePasseValide); here the positive branch is written first, with the
same two outcomes. reload() after increment is modelled as findByPk on the
updated state. -/
def AuthController.login (bd : BaseDeDonnees) (comparer : String → String → Bool)
    (email mot_de_passe : String) : ResultatLogin × BaseDeDonnees :=
  match UtilisateurRepository.trouverParEmail bd email with
  | none => (.identifiantsInvalides, bd)
  | some utilisateur =>
    if appConfig.maxLoginAttempts ≤ utilisateur.tentatives_echec then
      (.compteVerrouille, bd)
    else if comparer mot_de_passe utilisateur.mot_de_passe_hash then
      let bd1 := UtilisateurRepository.reinitialiserTentativesEchec bd utilisateur.id
      (.connecte
        { id := utilisateur.id, email := utilisateur.email,
          validiteHeures := appConfig.jwtExpirationHeures }
        { id := utilisateur.id, email := utilisateur.email,
          nom_affichage := utilisateur.nom_affichage,
          date_creation := utilisateur.date_creation }, bd1)
    else
      let bd1 := UtilisateurRepository.incrementerTentativesEchec bd utilisateur.id
      match UtilisateurRepository.trouverParId bd1 utilisateur.id with
      | some recharge =>
        if appConfig.maxLoginAttempts ≤ recharge.tentatives_echec then
          (.compteVerrouille, bd1)
        else
          (.identifiantsInvalides, bd1)
      | none => (.identifiantsInvalides, bd1)

/-- Outcome of AuthController.register: 400 duplicate email or 201 with the
public user fields. -/
inductive ResultatRegister where
  | emailDuplique
  | inscrit (utilisateur : UtilisateurPublic)
  deriving DecidableEq, Repr

/-- AuthController.register. bcrypt.hash with appConfig.bcryptSaltRounds is
abstracted as the function argument hacher. The id and date_creation are
server-assigned (UUID default and NOW()), passed as idFrais and maintenant;
actif = true and tentatives_echec = 0 are the column defaults of the
Utilisateur model. -/
def AuthController.register (bd : BaseDeDonnees) (hacher : String → String)
    (idFrais maintenant : Nat) (email mot_de_passe nom_affichage : String) :
    ResultatRegister × BaseDeDonnees :=
  match UtilisateurRepository.trouverParEmail bd email with
  | some _ => (.emailDuplique, bd)
  | none =>
    let motDePasseHash := hacher mot_de_passe
    let resultat := UtilisateurRepository.creer bd
      { id := idFrais, email := email, nom_affichage := nom_affichage,
        mot_de_passe_hash := motDePasseHash, date_creation := maintenant,
        actif := true, tentatives_echec := 0 }
    (.inscrit
      { id := resultat.2.id, email := resultat.2.email,
        nom_affichage := resultat.2.nom_affichage,
        date_creation := resultat.2.date_creation }, resultat.1)

/-- POST /api/auth/register as wired in authRoutes.js: the validator chain
body(email).isEmail().normalizeEmail() rewrites the supplied address with
the external validator library before the controller runs. Under its default
options that rewriting lowercases every address and additionally applies
provider-specific rules (for gmail addresses it also removes dots and
plus-subaddresses and converts the googlemail domain, and similarly for a
few other providers). Like bcrypt, that external library transformation is
abstracted as the function parameter normaliserEmail; concrete instances
only ever instantiate it on inputs where the documented default behaviour
is unambiguous. -/
def routeRegister (bd : BaseDeDonnees) (hacher : String → String)
    (normaliserEmail : String → String)
    (idFrais maintenant : Nat) (email mot_de_passe nom_affichage : String) :
    ResultatRegister × BaseDeDonnees :=
  AuthController.register bd hacher idFrais maintenant
    (normaliserEmail email) mot_de_passe nom_affichage

-- ==================== ListeRepository ====================

/-- Liste.findByPk(id). -/
def ListeRepository.trouverParId (bd : BaseDeDonnees) (id : Nat) : Option Liste :=
  bd.listes.find? (fun l => l.id == id)

/-- Liste.create(donnees). -/
def ListeRepository.creer (bd : BaseDeDonnees) (l : Liste) : BaseDeDonnees × Liste :=
  ({ bd with listes := bd.listes ++ [l] }, l)

/-- Partial update payload for a list (nom, couleur, ordre); a present field
is updated, an absent one left untouched. -/
structure DonneesMAJListe where
  nom : Option String
  couleur : Option String
  ordre : Option Nat
  deriving DecidableEq, Repr

/-- SQL UPDATE SET semantics of Liste.update: present columns overwrite. -/
def appliquerDonneesListe (l : Liste) (d : DonneesMAJListe) : Liste :=
  { l with nom := d.nom.getD l.nom, couleur := d.couleur.getD l.couleur,
           ordre := d.ordre.getD l.ordre }

/-- Liste.update(donnees, { where: { id } }) followed by trouverParId, as in
the repository. -/
def ListeRepository.mettreAJour (bd : BaseDeDonnees) (id : Nat) (d : DonneesMAJListe) :
    BaseDeDonnees × Option Liste :=
  let bd1 := { bd with listes := bd.listes.map (fun l =>
      if l.id == id then appliquerDonneesListe l d else l) }
  (bd1, ListeRepository.trouverParId bd1 id)

/-- Liste.destroy({ where: { id } }). -/
def ListeRepository.supprimer (bd : BaseDeDonnees) (id : Nat) : BaseDeDonnees :=
  { bd with listes := bd.listes.filter (fun l => !(l.id == id)) }

-- ==================== TacheRepository ====================

/-- Tache.findByPk(id) (the liste association join only adds a display
summary and is not part of the row state). -/
def TacheRepository.trouverParId (bd : BaseDeDonnees) (id : Nat) : Option Tache :=
  bd.taches.find? (fun t => t.id == id)

/-- Tache.create(donnees). -/
def TacheRepository.creer (bd : BaseDeDonnees) (t : Tache) : BaseDeDonnees × Tache :=
  ({ bd with taches := bd.taches ++ [t] }, t)

/-- Partial update payload for a task, one field per column the controller may
put into donneesMAJ. The outer Option is column presence; for nullable
columns the inner Option is the stored value. -/
structure DonneesMAJTache where
  titre : Option String
  description : Option (Option String)
  priorite : Option Priorite
  date_echeance : Option (Option Nat)
  liste_id : Option (Option Nat)
  statut : Option Statut
  date_completion : Option (Option Nat)
  deriving DecidableEq, Repr

/-- SQL UPDATE SET semantics of Tache.update: present columns overwrite,
absent columns keep their stored value. -/
def appliquerDonneesTache (t : Tache) (d : DonneesMAJTache) : Tache :=
  { t with
    titre := d.titre.getD t.titre,
    description := d.description.getD t.description,
    priorite := d.priorite.getD t.priorite,
    date_echeance := d.date_echeance.getD t.date_echeance,
    liste_id := d.liste_id.getD t.liste_id,
    statut := d.statut.getD t.statut,
    date_completion := d.date_completion.getD t.date_completion }

/-- Tache.update(donnees, { where: { id } }) followed by trouverParId, as in
the repository. -/
def TacheRepository.mettreAJour (bd : BaseDeDonnees) (id : Nat) (d : DonneesMAJTache) :
    BaseDeDonnees × Option Tache :=
  let bd1 := { bd with taches := bd.taches.map (fun t =>
      if t.id == id then appliquerDonneesTache t d else t) }
  (bd1, TacheRepository.trouverParId bd1 id)

/-- Tache.destroy({ where: { id } }); the migration declares
historique_modifications.tache_id with onDelete CASCADE, so the history rows
of the task are removed by the database as well. -/
def TacheRepository.supprimer (bd : BaseDeDonnees) (id : Nat) : BaseDeDonnees :=
  { bd with taches := bd.taches.filter (fun t => !(t.id == id)),
            historiques := bd.historiques.filter (fun h => !(h.tache_id == id)) }

/-- HistoriqueModification.create({tache_id, ancien_statut, nouveau_statut});
date_modification defaults to NOW(). -/
def TacheRepository.enregistrerHistorique (bd : BaseDeDonnees) (tacheId : Nat)
    (ancien nouveau : Statut) (maintenant : Nat) : BaseDeDonnees :=
  { bd with historiques := bd.historiques ++
      [{ tache_id := tacheId, ancien_statut := ancien,
         nouveau_statut := nouveau, date_modification := maintenant }] }

/-- Tache.update({ liste_id: null }, { where: { liste_id: listeId } }). -/
def TacheRepository.dissocierListe (bd : BaseDeDonnees) (listeId : Nat) : BaseDeDonnees :=
  { bd with taches := bd.taches.map (fun t =>
      if t.liste_id == some listeId then { t with liste_id := none } else t) }

/-- Position of a task for the first ORDER BY key,
literal(date_echeance IS NULL) ASC: rows with a due date (0) come before rows
without one (1). -/
def nulEcheance (t : Tache) : Nat :=
  match t.date_echeance with
  | none => 1
  | some _ => 0

/-- Value used for the second ORDER BY key, date_echeance ASC; inside the
null group every row carries the same key. -/
def valEcheance (t : Tache) : Nat :=
  match t.date_echeance with
  | none => 0
  | some d => d

/-- The three-key ORDER BY of listerParUtilisateur,
[(date_echeance IS NULL) ASC, date_echeance ASC, date_creation DESC], as a
total preorder: a precedes-or-ties b. -/
def leTri (a b : Tache) : Prop :=
  nulEcheance a < nulEcheance b
  ∨ (nulEcheance a = nulEcheance b
     ∧ (valEcheance a < valEcheance b
        ∨ (valEcheance a = valEcheance b ∧ b.date_creation ≤ a.date_creation)))

instance : DecidableRel leTri := fun a b => by
  unfold leTri; infer_instance

instance : IsTotal Tache leTri := ⟨by
  intro a b; unfold leTri; omega⟩

instance : IsTrans Tache leTri := ⟨by
  intro a b c; unfold leTri; omega⟩

/-- WHERE clause of listerParUtilisateur: owner, plus the optional statut,
priorite and liste_id filters (conjunctive). -/
def correspondFiltres (utilisateurId : Nat) (statut : Option Statut)
    (priorite : Option Priorite) (listeId : Option Nat) (t : Tache) : Bool :=
  t.utilisateur_id == utilisateurId
  && (match statut with
      | some s => decide (t.statut = s)
      | none => true)
  && (match priorite with
      | some p => decide (t.priorite = p)
      | none => true)
  && (match listeId with
      | some l => decide (t.liste_id = some l)
      | none => true)

/-- Query options of listerParUtilisateur (already-parsed page and limit). -/
structure OptionsListe where
  page : Nat
  limit : Nat
  statut : Option Statut
  priorite : Option Priorite
  liste_id : Option Nat
  deriving DecidableEq, Repr

/-- Tache.findAndCountAll of listerParUtilisateur: filter by the WHERE
clause, sort by the ORDER BY keys, apply offset = (page-1)*limit and the
limit; count is the number of matching rows before offset and limit. -/
def TacheRepository.listerParUtilisateur (bd : BaseDeDonnees) (utilisateurId : Nat)
    (o : OptionsListe) : List Tache × Nat :=
  let filtrees := bd.taches.filter
    (correspondFiltres utilisateurId o.statut o.priorite o.liste_id)
  let triees := List.insertionSort leTri filtrees
  ((triees.drop ((o.page - 1) * o.limit)).take o.limit, filtrees.length)

/-- ORDER BY date_creation DESC used by rechercher. -/
def ordreCreationDesc (a b : Tache) : Prop :=
  b.date_creation ≤ a.date_creation

instance : DecidableRel ordreCreationDesc := fun a b => by
  unfold ordreCreationDesc; infer_instance

instance : IsTotal Tache ordreCreationDesc := ⟨by
  intro a b; unfold ordreCreationDesc; omega⟩

instance : IsTrans Tache ordreCreationDesc := ⟨by
  intro a b c; unfold ordreCreationDesc; omega⟩

/-- Occurrence of the character list aiguille inside the character list
parcourue (plain substring containment). -/
def contientListe (aiguille : List Char) : List Char → Bool
  | [] => aiguille.isEmpty
  | c :: reste => aiguille.isPrefixOf (c :: reste) || contientListe aiguille reste

/-- ASCII lowercasing of a string, character by character; models the
lowercasing done by SQL ILIKE (and by the validator email normalization). -/
def minusculeChaine (s : String) : String :=
  ⟨s.data.map Char.toLower⟩

/-- Case-insensitive substring containment: the claimed notion of a text
containing the keyword. This is not the repository query itself — the query
is an ILIKE pattern match (correspondILike below) — but the two coincide for
keywords free of the pattern metacharacters, which is proved with the C10
theorem. -/
def contientInsensible (texte motif : String) : Bool :=
  contientListe (minusculeChaine motif).data (minusculeChaine texte).data

/-- SQL LIKE pattern matching of a pattern against a text, both as character
lists: a percent sign matches any sequence of characters (tried on every
suffix of the text), an underscore matches exactly one character, a
backslash (the default PostgreSQL escape character) makes the following
pattern character literal, and any other character matches itself. A pattern
ending in a dangling backslash is an error in PostgreSQL; the patterns built
by the repository (percent ++ keyword ++ percent) never end in one, and the
dangling case here conservatively matches nothing. -/
def correspondMotif : List Char → List Char → Bool
  | [], texte => texte.isEmpty
  | c :: motif, texte =>
    if c = '%' then
      (texte.tails).any (fun s => correspondMotif motif s)
    else if c = '_' then
      match texte with
      | [] => false
      | _ :: reste => correspondMotif motif reste
    else if c = '\\' then
      match motif with
      | [] => false
      | c2 :: motif2 =>
        match texte with
        | [] => false
        | t :: reste => c2 == t && correspondMotif motif2 reste
    else
      match texte with
      | [] => false
      | t :: reste => c == t && correspondMotif motif reste

/-- The Op.iLike percent-recherche-percent condition of the repository:
case-insensitive LIKE, modelled by lowercasing both sides (which moves no
character into or out of the metacharacter set) and matching the pattern
percent ++ keyword ++ percent. -/
def correspondILike (texte motif : String) : Bool :=
  correspondMotif ('%' :: ((minusculeChaine motif).data ++ ['%']))
    (minusculeChaine texte).data

/-- A character list free of the three LIKE metacharacters; for such
keywords the ILIKE condition is plain case-insensitive containment. -/
def sansJoker (l : List Char) : Bool :=
  l.all (fun c => !(c == '%') && !(c == '_') && !(c == '\\'))

/-- Tache.findAll of rechercher: owned rows whose titre or description
matches ILIKE percent-recherche-percent (a NULL description never matches),
ordered by date_creation DESC. -/
def TacheRepository.rechercher (bd : BaseDeDonnees) (utilisateurId : Nat)
    (recherche : String) : List Tache :=
  List.insertionSort ordreCreationDesc (bd.taches.filter (fun t =>
    t.utilisateur_id == utilisateurId
    && (correspondILike t.titre recherche
        || (match t.description with
            | some d => correspondILike d recherche
            | none => false))))

/-- Status counters of compterParStatut. -/
structure Compteurs where
  total : Nat
  A_FAIRE : Nat
  EN_COURS : Nat
  TERMINEE : Nat
  deriving DecidableEq, Repr

/-- compterParStatut: fetch all rows of the owner (no other filter), total is
their number, and each per-status counter counts the rows with that statut
(statut is constrained to the three enumeration values). -/
def TacheRepository.compterParStatut (bd : BaseDeDonnees) (utilisateurId : Nat) :
    Compteurs :=
  let taches := bd.taches.filter (fun t => t.utilisateur_id == utilisateurId)
  { total := taches.length,
    A_FAIRE := taches.countP (fun t => decide (t.statut = .A_FAIRE)),
    EN_COURS := taches.countP (fun t => decide (t.statut = .EN_COURS)),
    TERMINEE := taches.countP (fun t => decide (t.statut = .TERMINEE)) }

-- ==================== TaskController ====================

/-- Outcome of a controller action: succes with the response data, or echec
with the HTTP status code (403, 404, ...). -/
inductive Resultat (α : Type) where
  | succes (donnees : α)
  | echec (code : Nat)
  deriving DecidableEq, Repr

/-- Request body of POST /api/taches after route validation. A statut field
supplied by the client is carried here but never read by the controller. -/
structure CorpsCreerTache where
  titre : String
  description : Option String
  priorite : Option Priorite
  date_echeance : Option Nat
  liste_id : Option Nat
  statut : Option Statut
  deriving DecidableEq, Repr

/-- TaskController.creerTache. idFrais and maintenant are the server-assigned
id and creation time. The if (liste_id) ownership gate and the
falsy-to-null defaulting of the source are kept: description of length zero
becomes null (description or-else null with a falsy empty string); a
validated date_echeance or liste_id is never the empty string, so their
or-else null is the identity on present values; statut is hard-coded to
A_FAIRE. -/
def TaskController.creerTache (bd : BaseDeDonnees) (utilisateurId idFrais maintenant : Nat)
    (corps : CorpsCreerTache) : Resultat (Option Tache) × BaseDeDonnees :=
  let verifListe : Bool :=
    match corps.liste_id with
    | some listeId =>
      match ListeRepository.trouverParId bd listeId with
      | none => false
      | some liste => liste.utilisateur_id == utilisateurId
    | none => true
  if !verifListe then (.echec 403, bd)
  else
    let resultat := TacheRepository.creer bd
      { id := idFrais,
        titre := corps.titre,
        description :=
          match corps.description with
          | some d => if d == "" then none else some d
          | none => none,
        statut := .A_FAIRE,
        priorite := corps.priorite.getD .MOYENNE,
        date_echeance := corps.date_echeance,
        date_creation := maintenant,
        date_completion := none,
        utilisateur_id := utilisateurId,
        liste_id := corps.liste_id }
    (.succes (TacheRepository.trouverParId resultat.1 resultat.2.id), resultat.1)

/-- TaskController.detailTache: 404 when the row is absent, then 403 when the
requester is not the owner, then the task. -/
def TaskController.detailTache (bd : BaseDeDonnees) (utilisateurId tacheId : Nat) :
    Resultat Tache :=
  match TacheRepository.trouverParId bd tacheId with
  | none => .echec 404
  | some tache =>
    if tache.utilisateur_id ≠ utilisateurId then .echec 403
    else .succes tache

/-- Request body of PATCH /api/taches/:id after route validation. An outer
none is an absent key (column untouched); for description, date_echeance and
liste_id an inner none is an explicit null. -/
structure CorpsModifierTache where
  titre : Option String
  description : Option (Option String)
  statut : Option Statut
  priorite : Option Priorite
  date_echeance : Option (Option Nat)
  liste_id : Option (Option Nat)
  deriving DecidableEq, Repr

/-- TaskController.modifierTache: 404, then ownership 403, then the list
ownership gate when liste_id is present and non-null (403 on a missing or
foreign list), then donneesMAJ assembly: when statut is present and differs
from the current one an history row is written first, the statut column is
updated, and date_completion is set to now on entering TERMINEE or cleared
on leaving TERMINEE. -/
def TaskController.modifierTache (bd : BaseDeDonnees) (utilisateurId tacheId maintenant : Nat)
    (corps : CorpsModifierTache) : Resultat (Option Tache) × BaseDeDonnees :=
  match TacheRepository.trouverParId bd tacheId with
  | none => (.echec 404, bd)
  | some tache =>
    if tache.utilisateur_id ≠ utilisateurId then (.echec 403, bd)
    else
      let verifListe : Bool :=
        match corps.liste_id with
        | some (some listeId) =>
          match ListeRepository.trouverParId bd listeId with
          | none => false
          | some liste => liste.utilisateur_id == utilisateurId
        | _ => true
      if !verifListe then (.echec 403, bd)
      else
        let donneesBase : DonneesMAJTache :=
          { titre := corps.titre, description := corps.description,
            priorite := corps.priorite, date_echeance := corps.date_echeance,
            liste_id := corps.liste_id, statut := none, date_completion := none }
        match corps.statut with
        | some nouveauStatut =>
          if nouveauStatut ≠ tache.statut then
            let bd1 := TacheRepository.enregistrerHistorique bd tache.id
              tache.statut nouveauStatut maintenant
            let donnees := { donneesBase with
              statut := some nouveauStatut,
              date_completion :=
                if nouveauStatut = .TERMINEE then some (some maintenant)
                else if tache.statut = .TERMINEE then some none
                else none }
            let resultat := TacheRepository.mettreAJour bd1 tacheId donnees
            (.succes resultat.2, resultat.1)
          else
            let resultat := TacheRepository.mettreAJour bd tacheId donneesBase
            (.succes resultat.2, resultat.1)
        | none =>
          let resultat := TacheRepository.mettreAJour bd tacheId donneesBase
          (.succes resultat.2, resultat.1)

/-- TaskController.supprimerTache: 404, ownership 403, then destroy. -/
def TaskController.supprimerTache (bd : BaseDeDonnees) (utilisateurId tacheId : Nat) :
    Resultat Unit × BaseDeDonnees :=
  match TacheRepository.trouverParId bd tacheId with
  | none => (.echec 404, bd)
  | some tache =>
    if tache.utilisateur_id ≠ utilisateurId then (.echec 403, bd)
    else (.succes (), TacheRepository.supprimer bd tacheId)

/-- parseInt(q, 10) or-else defaut of listerTaches: an absent or zero (falsy)
parsed value falls back to the default. -/
def parDefaut (q : Option Nat) (defaut : Nat) : Nat :=
  match q with
  | some n => if n = 0 then defaut else n
  | none => defaut

/-- Pagination metadata of the listerTaches response. -/
structure Pagination where
  page : Nat
  limit : Nat
  total : Nat
  totalPages : Nat
  deriving DecidableEq, Repr

/-- Response data of GET /api/taches: rows, counters, pagination. -/
structure DonneesListeTaches where
  taches : List Tache
  compteurs : Compteurs
  pagination : Pagination
  deriving DecidableEq, Repr

/-- TaskController.listerTaches. Math.ceil(total / limit) is Nat ceiling
division (limit is at least 1 after parDefaut). -/
def TaskController.listerTaches (bd : BaseDeDonnees) (utilisateurId : Nat)
    (pageQ limitQ : Option Nat) (statut : Option Statut) (priorite : Option Priorite)
    (listeId : Option Nat) : DonneesListeTaches :=
  let page := parDefaut pageQ appConfig.defaultPage
  let limit := parDefaut limitQ appConfig.defaultPageLimit
  let resultat := TacheRepository.listerParUtilisateur bd utilisateurId
    { page := page, limit := limit, statut := statut, priorite := priorite,
      liste_id := listeId }
  let compteurs := TacheRepository.compterParStatut bd utilisateurId
  { taches := resultat.1, compteurs := compteurs,
    pagination := { page := page, limit := limit, total := resultat.2,
                    totalPages := (resultat.2 + limit - 1) / limit } }

/-- Leading and trailing whitespace removal, the JS String.prototype.trim
applied by the controller to the q query parameter. -/
def rognerChaine (s : String) : String :=
  ⟨((s.data.dropWhile Char.isWhitespace).reverse.dropWhile Char.isWhitespace).reverse⟩

/-- TaskController.rechercher: 400 when q is absent, empty or whitespace
(the falsy test plus trimmed length zero), otherwise the owned rows matching
the trimmed keyword. The response data holds only the task list: no counters
and no pagination. -/
def TaskController.rechercher (bd : BaseDeDonnees) (utilisateurId : Nat)
    (q : Option String) : Resultat (List Tache) :=
  match q with
  | none => .echec 400
  | some qs =>
    if qs == "" || rognerChaine qs == "" then .echec 400
    else .succes (TacheRepository.rechercher bd utilisateurId (rognerChaine qs))

/-- Request body of POST /api/listes after route validation. -/
structure CorpsCreerListe where
  nom : String
  couleur : Option String
  ordre : Option Nat
  deriving DecidableEq, Repr

/-- TaskController.creerListe. The couleur or-else default: the validator
only accepts seven-character hex strings, so a present couleur is never
falsy; ordre or-else 0 maps a present 0 to 0 and an absent value to 0. -/
def TaskController.creerListe (bd : BaseDeDonnees) (utilisateurId idFrais : Nat)
    (corps : CorpsCreerListe) : Resultat Liste × BaseDeDonnees :=
  let resultat := ListeRepository.creer bd
    { id := idFrais, nom := corps.nom,
      couleur := corps.couleur.getD "#3B82F6",
      ordre := corps.ordre.getD 0,
      utilisateur_id := utilisateurId }
  (.succes resultat.2, resultat.1)

/-- TaskController.modifierListe: 404, ownership 403, then the partial
update. -/
def TaskController.modifierListe (bd : BaseDeDonnees) (utilisateurId listeId : Nat)
    (corps : DonneesMAJListe) : Resultat (Option Liste) × BaseDeDonnees :=
  match ListeRepository.trouverParId bd listeId with
  | none => (.echec 404, bd)
  | some liste =>
    if liste.utilisateur_id ≠ utilisateurId then (.echec 403, bd)
    else
      let resultat := ListeRepository.mettreAJour bd listeId corps
      (.succes resultat.2, resultat.1)

/-- TaskController.supprimerListe: 404, ownership 403, then dissocierListe on
the referencing tasks followed by the destroy of the list row. -/
def TaskController.supprimerListe (bd : BaseDeDonnees) (utilisateurId listeId : Nat) :
    Resultat Unit × BaseDeDonnees :=
  match ListeRepository.trouverParId bd listeId with
  | none => (.echec 404, bd)
  | some liste =>
    if liste.utilisateur_id ≠ utilisateurId then (.echec 403, bd)
    else
      let bd1 := TacheRepository.dissocierListe bd listeId
      let bd2 := ListeRepository.supprimer bd1 listeId
      (.succes (), bd2)

-- ==================== Helper lemmas ====================

/-- Finding by key after a keyed map update: when keys are unique and u is a
row of the table, updating every row carrying the key of u (there is exactly
one) and then fetching that key returns the updated u. -/
theorem trouver_apres_maj {α : Type} (cle : α → Nat) (f : α → α)
    (hf : ∀ x, cle (f x) = cle x) (l : List α) (u : α) (hu : u ∈ l)
    (hnd : (l.map cle).Nodup) :
    (l.map (fun x => if cle x == cle u then f x else x)).find?
      (fun x => cle x == cle u) = some (f u) := by
  induction l with
  | nil => exact absurd hu (List.not_mem_nil u)
  | cons h t ih =>
    rw [List.map_cons] at hnd ⊢
    rcases List.mem_cons.mp hu with rfl | hu2
    · rw [if_pos (by simp)]
      exact List.find?_cons_of_pos _ (by simp [hf])
    · have hne : cle h ≠ cle u := by
        intro he
        exact (List.nodup_cons.mp hnd).1 (he ▸ List.mem_map_of_mem cle hu2)
      rw [if_neg (by simp [hne])]
      rw [List.find?_cons_of_neg _ (by simp [hne])]
      exact ih hu2 (List.nodup_cons.mp hnd).2

/-- Fetching a row by primary key after the increment of tentatives_echec
keyed on that primary key. -/
theorem trouver_apres_incrementer (bd : BaseDeDonnees) (u : Utilisateur)
    (hu : u ∈ bd.utilisateurs)
    (hnd : (bd.utilisateurs.map Utilisateur.id).Nodup) :
    UtilisateurRepository.trouverParId
      (UtilisateurRepository.incrementerTentativesEchec bd u.id) u.id
      = some { u with tentatives_echec := u.tentatives_echec + 1 } := by
  unfold UtilisateurRepository.trouverParId UtilisateurRepository.incrementerTentativesEchec
  exact trouver_apres_maj Utilisateur.id
    (fun v => { v with tentatives_echec := v.tentatives_echec + 1 })
    (fun v => rfl) bd.utilisateurs u hu hnd

/-- Fetching a row by primary key after the reset of tentatives_echec keyed
on that primary key. -/
theorem trouver_apres_reinitialiser (bd : BaseDeDonnees) (u : Utilisateur)
    (hu : u ∈ bd.utilisateurs)
    (hnd : (bd.utilisateurs.map Utilisateur.id).Nodup) :
    UtilisateurRepository.trouverParId
      (UtilisateurRepository.reinitialiserTentativesEchec bd u.id) u.id
      = some { u with tentatives_echec := 0 } := by
  unfold UtilisateurRepository.trouverParId UtilisateurRepository.reinitialiserTentativesEchec
  exact trouver_apres_maj Utilisateur.id
    (fun v => { v with tentatives_echec := 0 })
    (fun v => rfl) bd.utilisateurs u hu hnd

-- ==================== C1 ====================

/-- C1: Login behaviour. When no user carries the email, the outcome is
InvalidCredentials and the state is unchanged. When the stored
consecutive-failure counter is already at least 3, the outcome is
AccountLocked whatever the password (so a fourth, correct-password attempt
after three failures still fails with AccountLocked). When the password is
wrong, the counter of that user is incremented by exactly one, and the
outcome is AccountLocked exactly when the new counter has reached 3,
InvalidCredentials otherwise. When the password is correct and the counter
below 3, the counter is reset to 0 and a token embedding the user id and
email, valid 24 hours, is issued. -/
theorem C1_login_verrouillage (bd : BaseDeDonnees) (comparer : String → String → Bool)
    (email mot_de_passe : String)
    (hnd : (bd.utilisateurs.map Utilisateur.id).Nodup) :
    (UtilisateurRepository.trouverParEmail bd email = none →
      AuthController.login bd comparer email mot_de_passe = (.identifiantsInvalides, bd))
    ∧ (∀ u, UtilisateurRepository.trouverParEmail bd email = some u →
        (3 ≤ u.tentatives_echec →
          AuthController.login bd comparer email mot_de_passe = (.compteVerrouille, bd))
        ∧ (u.tentatives_echec < 3 → comparer mot_de_passe u.mot_de_passe_hash = false →
            AuthController.login bd comparer email mot_de_passe
              = ((if 3 ≤ u.tentatives_echec + 1 then .compteVerrouille
                  else .identifiantsInvalides),
                 UtilisateurRepository.incrementerTentativesEchec bd u.id)
            ∧ UtilisateurRepository.trouverParId
                (UtilisateurRepository.incrementerTentativesEchec bd u.id) u.id
                = some { u with tentatives_echec := u.tentatives_echec + 1 })
        ∧ (u.tentatives_echec < 3 → comparer mot_de_passe u.mot_de_passe_hash = true →
            AuthController.login bd comparer email mot_de_passe
              = (.connecte
                  { id := u.id, email := u.email, validiteHeures := 24 }
                  { id := u.id, email := u.email, nom_affichage := u.nom_affichage,
                    date_creation := u.date_creation },
                 UtilisateurRepository.reinitialiserTentativesEchec bd u.id)
            ∧ UtilisateurRepository.trouverParId
                (UtilisateurRepository.reinitialiserTentativesEchec bd u.id) u.id
                = some { u with tentatives_echec := 0 })) := by
  constructor
  · intro h
    unfold AuthController.login
    rw [h]
  · intro u hu
    have humem : u ∈ bd.utilisateurs := List.mem_of_find?_eq_some hu
    have hmax : appConfig.maxLoginAttempts = 3 := rfl
    refine ⟨?_, ?_, ?_⟩
    · intro h3
      unfold AuthController.login
      rw [hu]
      simp only [hmax, if_pos h3]
    · intro hlt hcmp
      have hfind := trouver_apres_incrementer bd u humem hnd
      refine ⟨?_, hfind⟩
      unfold AuthController.login
      rw [hu]
      simp only [hmax, if_neg (Nat.not_le.mpr hlt), hcmp]
      simp only [Bool.false_eq_true, if_false, hfind]
      split <;> rfl
    · intro hlt hcmp
      have hfind := trouver_apres_reinitialiser bd u humem hnd
      refine ⟨?_, hfind⟩
      unfold AuthController.login
      rw [hu]
      simp only [hmax, if_neg (Nat.not_le.mpr hlt), hcmp, if_true]
      rfl

/-- C1 witness: a user with two failed attempts and a wrong password reaches
the counter 3 and is locked; the same user with a correct password is issued
the 24-hour token and reset to 0. -/
theorem C1_login_verrouillage_witness :
    (AuthController.login ⟨[⟨1, "a@x.com", "Alice", "secret", 0, true, 2⟩], [], [], []⟩
        (fun p h => p == h) "a@x.com" "oops").1 = .compteVerrouille
    ∧ (AuthController.login ⟨[⟨1, "a@x.com", "Alice", "secret", 0, true, 2⟩], [], [], []⟩
        (fun p h => p == h) "a@x.com" "secret").1
        = .connecte ⟨1, "a@x.com", 24⟩ ⟨1, "a@x.com", "Alice", 0⟩ := by
  have h := C1_login_verrouillage ⟨[⟨1, "a@x.com", "Alice", "secret", 0, true, 2⟩], [], [], []⟩
    (fun p h => p == h) "a@x.com" "oops" (by decide)
  have h2 := C1_login_verrouillage ⟨[⟨1, "a@x.com", "Alice", "secret", 0, true, 2⟩], [], [], []⟩
    (fun p h => p == h) "a@x.com" "secret" (by decide)
  constructor
  · have hc := ((h.2 ⟨1, "a@x.com", "Alice", "secret", 0, true, 2⟩ (by decide)).2.1
      (by decide) (by decide)).1
    rw [hc]; decide
  · have hc := ((h2.2 ⟨1, "a@x.com", "Alice", "secret", 0, true, 2⟩ (by decide)).2.2
      (by decide) (by decide)).1
    rw [hc]

-- ==================== C6 ====================

/-- C6 counterexample: with a stored user a@x.com, Register with the email
A@x.com fails with DuplicateEmail although no stored user carries exactly the
string A@x.com — the route validator rewrites the supplied address before
the lookup, so the end-to-end comparison is not a case-sensitive exact match
against the supplied email. The abstract validator transformation is
instantiated here with minusculeChaine: on the address A@x.com that is
exactly what the library's default normalization does, because x.com belongs
to none of the provider domain lists (gmail, outlook, yahoo, icloud), so of
the default rules only the unconditional all_lowercase applies. -/
theorem C6_contre_exemple :
    (routeRegister ⟨[⟨1, "a@x.com", "Alice", "h1", 0, true, 0⟩], [], [], []⟩
        (fun s => s) minusculeChaine 2 5 "A@x.com" "motdepasse" "Bob").1 = .emailDuplique
    ∧ (⟨[⟨1, "a@x.com", "Alice", "h1", 0, true, 0⟩], [], [], []⟩
        : BaseDeDonnees).utilisateurs.all (fun u => !(u.email == "A@x.com")) = true := by
  decide

/-- C6 amended: Register fails with DuplicateEmail exactly when a stored user
carries the route-normalized form of the supplied email — the lookup against
the stored emails is an exact string match, but it receives the output of
the validator normalization (under its defaults: every address lowercased,
and provider-specific rewrites such as gmail dot and subaddress removal),
not the raw supplied address, so the end-to-end comparison is not a
case-sensitive exact match against the supplied email. Otherwise the user is
created with the normalized email, only the salted one-way hash of the
password (the bcrypt digest, abstracted as hacher), failed-counter 0 and
actif true, and the response carries exactly the four public fields, never
the hash. The theorem holds for every normalization function, hence in
particular for the library's. -/
theorem C6_register_email_normalise (bd : BaseDeDonnees) (hacher : String → String)
    (normaliserEmail : String → String)
    (idFrais maintenant : Nat) (email mot_de_passe nom_affichage : String) :
    ((∃ u ∈ bd.utilisateurs, u.email = normaliserEmail email) →
      routeRegister bd hacher normaliserEmail idFrais maintenant email mot_de_passe
          nom_affichage
        = (.emailDuplique, bd))
    ∧ ((∀ u ∈ bd.utilisateurs, u.email ≠ normaliserEmail email) →
      routeRegister bd hacher normaliserEmail idFrais maintenant email mot_de_passe
          nom_affichage
        = (.inscrit
            { id := idFrais, email := normaliserEmail email,
              nom_affichage := nom_affichage, date_creation := maintenant },
           { bd with utilisateurs := bd.utilisateurs ++
              [{ id := idFrais, email := normaliserEmail email,
                 nom_affichage := nom_affichage,
                 mot_de_passe_hash := hacher mot_de_passe,
                 date_creation := maintenant, actif := true,
                 tentatives_echec := 0 }] })) := by
  constructor
  · rintro ⟨u, hu, he⟩
    unfold routeRegister AuthController.register
    rcases hfind : UtilisateurRepository.trouverParEmail bd (normaliserEmail email)
      with _ | u2
    · exfalso
      unfold UtilisateurRepository.trouverParEmail at hfind
      rw [List.find?_eq_none] at hfind
      exact hfind u hu (by simp [he])
    · rfl
  · intro h
    unfold routeRegister AuthController.register
    rcases hfind : UtilisateurRepository.trouverParEmail bd (normaliserEmail email)
      with _ | u2
    · rfl
    · exfalso
      unfold UtilisateurRepository.trouverParEmail at hfind
      have hm := List.mem_of_find?_eq_some hfind
      have hp := List.find?_some hfind
      rw [beq_iff_eq] at hp
      exact h u2 hm hp

/-- C6 witness: registering Bob@X.com on an empty store creates the user with
the normalized email bob@x.com, the hash of the password, counter 0 and
actif true, and returns the four public fields. As in the counterexample,
the abstract normalization is instantiated with minusculeChaine, which
coincides with the default library normalization on the non-provider domain
X.com. -/
theorem C6_register_email_normalise_witness :
    routeRegister ⟨[], [], [], []⟩ (fun s => String.append s "#h") minusculeChaine
        1 0 "Bob@X.com" "mdp" "Bob"
      = (.inscrit ⟨1, "bob@x.com", "Bob", 0⟩,
         ⟨[⟨1, "bob@x.com", "Bob", "mdp#h", 0, true, 0⟩], [], [], []⟩) := by
  have h := (C6_register_email_normalise ⟨[], [], [], []⟩ (fun s => String.append s "#h")
    minusculeChaine 1 0 "Bob@X.com" "mdp" "Bob").2 (by intro u hu; cases hu)
  rw [h]
  decide

-- ==================== C2 ====================

/-- C2 counterexample: CreateTask with a liste_id referencing no stored list
reports Forbidden 403, not NotFound 404 — for the list-ownership validation
inside CreateTask, non-existence is not reported as NotFound, so NotFound is
not reported exactly when the referenced resource is missing. -/
theorem C2_contre_exemple :
    (TaskController.creerTache ⟨[], [], [], []⟩ 7 1 0
        ⟨"abc", none, none, none, some 9, none⟩).1 = .echec 403
    ∧ ListeRepository.trouverParId ⟨[], [], [], []⟩ 9 = none
    ∧ (TaskController.creerTache ⟨[], [], [], []⟩ 7 1 0
        ⟨"abc", none, none, none, some 9, none⟩).1 ≠ .echec 404 := by
  decide

/-- C2 amended: for the operations addressing a stored resource by its own
identifier (GetTask, UpdateTask, DeleteTask, UpdateList, DeleteList) the
existence check runs first: NotFound 404 exactly when the row is missing,
and Forbidden 403 due to ownership exactly when the row exists with a
different stored owner — except that UpdateTask additionally reports 403
when its owned task carries a liste_id update whose list is missing or
foreign. For the list-ownership validation inside CreateTask (and the same
gate inside UpdateTask), a missing list and a foreign list are both reported
as Forbidden 403 (never 404). -/
theorem C2_existence_avant_possession (bd : BaseDeDonnees)
    (uid tacheId listeId maintenant idFrais : Nat) (corpsM : CorpsModifierTache)
    (corpsC : CorpsCreerTache) (corpsL : DonneesMAJListe) :
    (TaskController.detailTache bd uid tacheId = .echec 404
        ↔ TacheRepository.trouverParId bd tacheId = none)
    ∧ (TaskController.detailTache bd uid tacheId = .echec 403
        ↔ ∃ t, TacheRepository.trouverParId bd tacheId = some t ∧ t.utilisateur_id ≠ uid)
    ∧ ((TaskController.supprimerTache bd uid tacheId).1 = .echec 404
        ↔ TacheRepository.trouverParId bd tacheId = none)
    ∧ ((TaskController.supprimerTache bd uid tacheId).1 = .echec 403
        ↔ ∃ t, TacheRepository.trouverParId bd tacheId = some t ∧ t.utilisateur_id ≠ uid)
    ∧ ((TaskController.modifierListe bd uid listeId corpsL).1 = .echec 404
        ↔ ListeRepository.trouverParId bd listeId = none)
    ∧ ((TaskController.modifierListe bd uid listeId corpsL).1 = .echec 403
        ↔ ∃ l, ListeRepository.trouverParId bd listeId = some l ∧ l.utilisateur_id ≠ uid)
    ∧ ((TaskController.supprimerListe bd uid listeId).1 = .echec 404
        ↔ ListeRepository.trouverParId bd listeId = none)
    ∧ ((TaskController.supprimerListe bd uid listeId).1 = .echec 403
        ↔ ∃ l, ListeRepository.trouverParId bd listeId = some l ∧ l.utilisateur_id ≠ uid)
    ∧ ((TaskController.modifierTache bd uid tacheId maintenant corpsM).1 = .echec 404
        ↔ TacheRepository.trouverParId bd tacheId = none)
    ∧ ((TaskController.modifierTache bd uid tacheId maintenant corpsM).1 = .echec 403
        ↔ ∃ t, TacheRepository.trouverParId bd tacheId = some t
            ∧ (t.utilisateur_id ≠ uid
               ∨ (t.utilisateur_id = uid
                  ∧ ∃ l, corpsM.liste_id = some (some l)
                     ∧ ¬ ∃ liste, ListeRepository.trouverParId bd l = some liste
                          ∧ liste.utilisateur_id = uid)))
    ∧ ((TaskController.creerTache bd uid idFrais maintenant corpsC).1 ≠ .echec 404)
    ∧ ((TaskController.creerTache bd uid idFrais maintenant corpsC).1 = .echec 403
        ↔ ∃ l, corpsC.liste_id = some l
            ∧ ¬ ∃ liste, ListeRepository.trouverParId bd l = some liste
                 ∧ liste.utilisateur_id = uid) := by
  refine ⟨?_, ?_, ?_, ?_, ?_, ?_, ?_, ?_, ?_, ?_, ?_, ?_⟩
  · rcases h : TacheRepository.trouverParId bd tacheId with _ | t <;>
      simp [TaskController.detailTache, h] <;>
      try (split_ifs <;> simp)
  · rcases h : TacheRepository.trouverParId bd tacheId with _ | t <;>
      simp [TaskController.detailTache, h] <;>
      try (split_ifs with ho <;> simp [ho])
  · rcases h : TacheRepository.trouverParId bd tacheId with _ | t <;>
      simp [TaskController.supprimerTache, h] <;>
      try (split_ifs <;> simp)
  · rcases h : TacheRepository.trouverParId bd tacheId with _ | t <;>
      simp [TaskController.supprimerTache, h] <;>
      try (split_ifs with ho <;> simp [ho])
  · rcases h : ListeRepository.trouverParId bd listeId with _ | l <;>
      simp [TaskController.modifierListe, h] <;>
      try (split_ifs <;> simp)
  · rcases h : ListeRepository.trouverParId bd listeId with _ | l <;>
      simp [TaskController.modifierListe, h] <;>
      try (split_ifs with ho <;> simp [ho])
  · rcases h : ListeRepository.trouverParId bd listeId with _ | l <;>
      simp [TaskController.supprimerListe, h] <;>
      try (split_ifs <;> simp)
  · rcases h : ListeRepository.trouverParId bd listeId with _ | l <;>
      simp [TaskController.supprimerListe, h] <;>
      try (split_ifs with ho <;> simp [ho])
  · rcases h : TacheRepository.trouverParId bd tacheId with _ | t <;>
      simp [TaskController.modifierTache, h] <;>
      try (split_ifs <;>
        rcases corpsM.statut with _ | st <;> simp <;> try (split_ifs <;> simp))
  · rcases h : TacheRepository.trouverParId bd tacheId with _ | t
    · simp [TaskController.modifierTache, h]
    · by_cases ho : t.utilisateur_id = uid
      · rcases hl : corpsM.liste_id with _ | ol
        · rcases hst : corpsM.statut with _ | st
          · simp [TaskController.modifierTache, h, ho, hl, hst]
          · by_cases hso : st = t.statut <;>
              simp [TaskController.modifierTache, h, ho, hl, hst, hso]
        · rcases ol with _ | l
          · rcases hst : corpsM.statut with _ | st
            · simp [TaskController.modifierTache, h, ho, hl, hst]
            · by_cases hso : st = t.statut <;>
                simp [TaskController.modifierTache, h, ho, hl, hst, hso]
          · rcases hliste : ListeRepository.trouverParId bd l with _ | liste
            · simp [TaskController.modifierTache, h, ho, hl, hliste]
            · by_cases hol : liste.utilisateur_id = uid
              · rcases hst : corpsM.statut with _ | st
                · simp [TaskController.modifierTache, h, ho, hl, hliste, hol, hst]
                · by_cases hso : st = t.statut <;>
                    simp [TaskController.modifierTache, h, ho, hl, hliste, hol, hst, hso]
              · simp [TaskController.modifierTache, h, ho, hl, hliste, hol, Ne.symm]
      · simp [TaskController.modifierTache, h, ho]
  · rcases hl : corpsC.liste_id with _ | l
    · simp [TaskController.creerTache, hl]
    · rcases hliste : ListeRepository.trouverParId bd l with _ | liste
      · simp [TaskController.creerTache, hl, hliste]
      · by_cases hol : liste.utilisateur_id = uid <;>
          simp [TaskController.creerTache, hl, hliste, hol]
  · rcases hl : corpsC.liste_id with _ | l
    · simp [TaskController.creerTache, hl]
    · rcases hliste : ListeRepository.trouverParId bd l with _ | liste
      · simp [TaskController.creerTache, hl, hliste]
      · by_cases hol : liste.utilisateur_id = uid <;>
          simp [TaskController.creerTache, hl, hliste, hol, Ne.symm]

-- ==================== C3 ====================

/-- Rows with the same unique key are the same row: with Nodup keys, any row
sharing the key of a found row is that row. -/
theorem unique_par_cle {α : Type} (cle : α → Nat) (l : List α)
    (hnd : (l.map cle).Nodup) (cible : Nat) (t : α)
    (ht : l.find? (fun x => cle x == cible) = some t)
    (y : α) (hy : y ∈ l) (hc : cle y = cible) : y = t := by
  have htm := List.mem_of_find?_eq_some ht
  have htp := List.find?_some ht
  rw [beq_iff_eq] at htp
  exact List.inj_on_of_nodup_map hnd hy htm (by rw [hc, htp])

/-- A successful findByPk yields a member row carrying the key. -/
theorem tache_trouver_some (bd : BaseDeDonnees) (tacheId : Nat) (tache : Tache)
    (h : TacheRepository.trouverParId bd tacheId = some tache) :
    tache ∈ bd.taches ∧ tache.id = tacheId := by
  unfold TacheRepository.trouverParId at h
  refine ⟨List.mem_of_find?_eq_some h, ?_⟩
  have := List.find?_some h
  rwa [beq_iff_eq] at this

/-- Partial update of an existing row with unique keys: the state maps the
row and the reloaded row is the updated one. -/
theorem mettreAJour_eq (bd : BaseDeDonnees) (tacheId : Nat) (d : DonneesMAJTache)
    (tache : Tache) (h : TacheRepository.trouverParId bd tacheId = some tache)
    (hnd : (bd.taches.map Tache.id).Nodup) :
    TacheRepository.mettreAJour bd tacheId d
      = ({ bd with taches := bd.taches.map (fun t =>
            if t.id == tacheId then appliquerDonneesTache t d else t) },
         some (appliquerDonneesTache tache d)) := by
  obtain ⟨hmem, hid⟩ := tache_trouver_some bd tacheId tache h
  subst hid
  unfold TacheRepository.mettreAJour
  have h2 : TacheRepository.trouverParId
      { bd with taches := bd.taches.map (fun t =>
          if t.id == tache.id then appliquerDonneesTache t d else t) } tache.id
      = some (appliquerDonneesTache tache d) := by
    unfold TacheRepository.trouverParId
    exact trouver_apres_maj Tache.id (fun t => appliquerDonneesTache t d)
      (fun t => rfl) bd.taches tache hmem hnd
  simp only [h2]

/-- Fetching a freshly inserted row whose key is new returns that row. -/
theorem trouver_apres_creer (bd : BaseDeDonnees) (t : Tache)
    (hfrais : ∀ x ∈ bd.taches, x.id ≠ t.id) :
    TacheRepository.trouverParId { bd with taches := bd.taches ++ [t] } t.id = some t := by
  unfold TacheRepository.trouverParId
  rw [List.find?_append]
  have h1 : bd.taches.find? (fun x => x.id == t.id) = none :=
    List.find?_eq_none.mpr (fun x hx => by simp [hfrais x hx])
  rw [h1]
  simp

/-- Invariant of the data model: the completion timestamp is non-null exactly
when the status is TERMINEE. -/
def invariantCompletion (t : Tache) : Prop :=
  t.date_completion.isSome = true ↔ t.statut = .TERMINEE

/-- The completion invariant holds of every task row of the state. -/
def invariantBD (bd : BaseDeDonnees) : Prop :=
  ∀ t ∈ bd.taches, invariantCompletion t

instance (t : Tache) : Decidable (invariantCompletion t) := by
  unfold invariantCompletion; infer_instance

instance (bd : BaseDeDonnees) : Decidable (invariantBD bd) := by
  unfold invariantBD; exact List.decidableBAll _ _

/-- A partial update whose applied form keeps the invariant on the keyed rows
keeps the invariant of the whole table. -/
theorem invariant_mettreAJour (bd0 : BaseDeDonnees) (tacheId : Nat)
    (d : DonneesMAJTache) (hinv0 : invariantBD bd0)
    (hok : ∀ y ∈ bd0.taches, y.id = tacheId →
      invariantCompletion (appliquerDonneesTache y d)) :
    invariantBD (TacheRepository.mettreAJour bd0 tacheId d).1 := by
  intro x hx
  unfold TacheRepository.mettreAJour at hx
  simp only [List.mem_map] at hx
  obtain ⟨y, hy, hxy⟩ := hx
  by_cases hid : (y.id == tacheId) = true
  · rw [if_pos hid] at hxy
    subst hxy
    exact hok y hy (beq_iff_eq.mp hid)
  · rw [if_neg hid] at hxy
    subst hxy
    exact hinv0 y hy

/-- C3: the completion-timestamp invariant. A newly created task row has
status A_FAIRE and a null completion timestamp; an update that transitions
into TERMINEE sets the completion timestamp to the current time, and one
that transitions out of TERMINEE clears it to null; and every state-changing
operation of the controller preserves the invariant that the completion
timestamp is non-null exactly when the status is TERMINEE. -/
theorem C3_invariant_completion (bd : BaseDeDonnees)
    (hinv : invariantBD bd) (hnd : (bd.taches.map Tache.id).Nodup) :
    (∀ uid idFrais maintenant corps,
      invariantBD (TaskController.creerTache bd uid idFrais maintenant corps).2
      ∧ ((TaskController.creerTache bd uid idFrais maintenant corps).1 ≠ .echec 403 →
          ∃ t, (TaskController.creerTache bd uid idFrais maintenant corps).2.taches
                = bd.taches ++ [t]
            ∧ t.statut = .A_FAIRE ∧ t.date_completion = none))
    ∧ (∀ uid tacheId maintenant corps,
        invariantBD (TaskController.modifierTache bd uid tacheId maintenant corps).2)
    ∧ (∀ uid tacheId maintenant corps tache st,
        TacheRepository.trouverParId bd tacheId = some tache →
        tache.utilisateur_id = uid →
        corps.statut = some st → st ≠ tache.statut →
        (∀ l, corps.liste_id = some (some l) →
          ∃ liste, ListeRepository.trouverParId bd l = some liste
            ∧ liste.utilisateur_id = uid) →
        ∃ t', (TaskController.modifierTache bd uid tacheId maintenant corps).1
                 = .succes (some t')
          ∧ (st = .TERMINEE → t'.date_completion = some maintenant)
          ∧ (tache.statut = .TERMINEE → st ≠ .TERMINEE → t'.date_completion = none))
    ∧ (∀ uid tacheId, invariantBD (TaskController.supprimerTache bd uid tacheId).2)
    ∧ (∀ uid idFrais corps, invariantBD (TaskController.creerListe bd uid idFrais corps).2)
    ∧ (∀ uid listeId corps, invariantBD (TaskController.modifierListe bd uid listeId corps).2)
    ∧ (∀ uid listeId, invariantBD (TaskController.supprimerListe bd uid listeId).2) := by
  have hcree : ∀ (t : Tache), t.statut = .A_FAIRE → t.date_completion = none →
      invariantBD { bd with taches := bd.taches ++ [t] } := by
    intro t h1 h2 x hx
    rcases List.mem_append.mp hx with hx | hx
    · exact hinv x hx
    · rw [List.mem_singleton] at hx
      subst hx
      simp [invariantCompletion, h1, h2]
  refine ⟨?_, ?_, ?_, ?_, ?_, ?_, ?_⟩
  · intro uid idFrais maintenant corps
    rcases hl : corps.liste_id with _ | l
    · constructor
      · simp only [TaskController.creerTache, hl, Bool.not_true, Bool.false_eq_true,
          if_false, TacheRepository.creer]
        exact hcree _ rfl rfl
      · intro _
        refine
          ⟨{ id := idFrais, titre := corps.titre,
             description :=
               (match corps.description with
                | some d => if d == "" then none else some d
                | none => none),
             statut := .A_FAIRE, priorite := corps.priorite.getD .MOYENNE,
             date_echeance := corps.date_echeance, date_creation := maintenant,
             date_completion := none, utilisateur_id := uid,
             liste_id := corps.liste_id }, ?_, rfl, rfl⟩
        simp only [TaskController.creerTache, hl, Bool.not_true, Bool.false_eq_true,
          if_false, TacheRepository.creer]
    · rcases hliste : ListeRepository.trouverParId bd l with _ | liste
      · constructor
        · simp only [TaskController.creerTache, hl, hliste, Bool.not_false, if_true]
          exact hinv
        · intro hne
          exfalso
          exact hne (by simp [TaskController.creerTache, hl, hliste])
      · by_cases hol : liste.utilisateur_id = uid
        · constructor
          · simp only [TaskController.creerTache, hl, hliste, hol, beq_self_eq_true,
              Bool.not_true, Bool.false_eq_true, if_false, TacheRepository.creer]
            exact hcree _ rfl rfl
          · intro _
            refine
              ⟨{ id := idFrais, titre := corps.titre,
                 description :=
                   (match corps.description with
                    | some d => if d == "" then none else some d
                    | none => none),
                 statut := .A_FAIRE, priorite := corps.priorite.getD .MOYENNE,
                 date_echeance := corps.date_echeance, date_creation := maintenant,
                 date_completion := none, utilisateur_id := uid,
                 liste_id := corps.liste_id }, ?_, rfl, rfl⟩
            simp only [TaskController.creerTache, hl, hliste, hol, beq_self_eq_true,
              Bool.not_true, Bool.false_eq_true, if_false, TacheRepository.creer]
        · constructor
          · simp only [TaskController.creerTache, hl, hliste]
            rw [if_pos (by simp [hol])]
            exact hinv
          · intro hne
            exfalso
            refine hne ?_
            simp only [TaskController.creerTache, hl, hliste]
            rw [if_pos (by simp [hol])]
  · intro uid tacheId maintenant corps
    rcases h : TacheRepository.trouverParId bd tacheId with _ | tache
    · simp only [TaskController.modifierTache, h]
      exact hinv
    · by_cases ho : tache.utilisateur_id = uid
      case neg =>
        simp only [TaskController.modifierTache, h]
        rw [if_pos (by simp [ho])]
        exact hinv
      case pos =>
        have hterm : ∀ (bd0 : BaseDeDonnees) (d : DonneesMAJTache),
            bd0.taches = bd.taches → invariantBD bd0 →
            (∀ y ∈ bd.taches, y.id = tacheId →
              invariantCompletion (appliquerDonneesTache y d)) →
            invariantBD (TacheRepository.mettreAJour bd0 tacheId d).1 := by
          intro bd0 d he hinv0 hok
          exact invariant_mettreAJour bd0 tacheId d hinv0 (by rw [he]; exact hok)
        have hbase : ∀ (bdx : BaseDeDonnees), bdx.taches = bd.taches → invariantBD bdx →
            invariantBD (TacheRepository.mettreAJour bdx tacheId
              { titre := corps.titre, description := corps.description,
                priorite := corps.priorite, date_echeance := corps.date_echeance,
                liste_id := corps.liste_id, statut := none,
                date_completion := none }).1 := by
          intro bdx he hinvx
          refine hterm bdx _ he hinvx ?_
          intro y hy _
          have := hinv y hy
          simpa [appliquerDonneesTache, invariantCompletion] using this
        simp only [TaskController.modifierTache, h]
        rw [if_neg (by simp [ho])]
        split
    -- verifListe false: state unchanged
        · exact hinv
        · rcases hst : corps.statut with _ | st
          · simp only [hst]
            exact hbase bd rfl hinv
          · simp only [hst]
            by_cases hso : st = tache.statut
            · rw [if_neg (by simp [hso])]
              exact hbase bd rfl hinv
            · rw [if_pos (by simp [hso])]
              refine hterm _ _ rfl (fun x hx => hinv x hx) ?_
              intro y hy hyid
              by_cases hT : st = .TERMINEE
              · simp [appliquerDonneesTache, invariantCompletion, hT]
              · by_cases hTT : tache.statut = .TERMINEE
                · simp [appliquerDonneesTache, invariantCompletion, hT, hTT]
                · have hy2 : y = tache := by
                    refine unique_par_cle Tache.id bd.taches hnd tacheId tache ?_ y hy hyid
                    unfold TacheRepository.trouverParId at h
                    exact h
                  subst hy2
                  have hyc : y.date_completion = none := by
                    have hi := hinv y (tache_trouver_some bd tacheId y h).1
                    unfold invariantCompletion at hi
                    rcases hc : y.date_completion with _ | c
                    · rfl
                    · exact absurd (hi.mp (by rw [hc]; rfl)) hTT
                  simp [appliquerDonneesTache, invariantCompletion, hT, hTT, hyc]
  · intro uid tacheId maintenant corps tache st h ho hst hne hl
    have hverif : (match corps.liste_id with
        | some (some listeId) =>
          match ListeRepository.trouverParId bd listeId with
          | none => false
          | some liste => liste.utilisateur_id == uid
        | _ => true) = true := by
      rcases hlid : corps.liste_id with _ | ol
      · rfl
      · rcases ol with _ | l
        · rfl
        · obtain ⟨liste, hliste, holiste⟩ := hl l hlid
          simp [hliste, holiste]
    simp only [TaskController.modifierTache, h, hst]
    rw [if_neg (by simp [ho])]
    rw [hverif]
    simp only [Bool.not_true, Bool.false_eq_true, if_false]
    rw [if_pos (by simp [hne])]
    have hH : TacheRepository.trouverParId
        (TacheRepository.enregistrerHistorique bd tache.id tache.statut st maintenant)
        tacheId = some tache := h
    have hndH : ((TacheRepository.enregistrerHistorique bd tache.id tache.statut st
        maintenant).taches.map Tache.id).Nodup := hnd
    rw [mettreAJour_eq _ tacheId _ tache hH hndH]
    refine ⟨_, rfl, ?_, ?_⟩
    · intro hT
      simp [appliquerDonneesTache, hT]
    · intro hTT hT
      simp [appliquerDonneesTache, hT, hTT]
  · intro uid tacheId
    rcases h : TacheRepository.trouverParId bd tacheId with _ | tache
    · simp only [TaskController.supprimerTache, h]
      exact hinv
    · by_cases ho : tache.utilisateur_id = uid
      · simp only [TaskController.supprimerTache, h]
        rw [if_neg (by simp [ho])]
        intro x hx
        simp only [TacheRepository.supprimer] at hx
        exact hinv x (List.mem_of_mem_filter hx)
      · simp only [TaskController.supprimerTache, h]
        rw [if_pos (by simp [ho])]
        exact hinv
  · intro uid idFrais corps
    intro x hx
    exact hinv x hx
  · intro uid listeId corps
    rcases h : ListeRepository.trouverParId bd listeId with _ | liste
    · simp only [TaskController.modifierListe, h]
      exact hinv
    · by_cases ho : liste.utilisateur_id = uid
      · simp only [TaskController.modifierListe, h]
        rw [if_neg (by simp [ho])]
        intro x hx
        simp only [ListeRepository.mettreAJour] at hx
        exact hinv x hx
      · simp only [TaskController.modifierListe, h]
        rw [if_pos (by simp [ho])]
        exact hinv
  · intro uid listeId
    rcases h : ListeRepository.trouverParId bd listeId with _ | liste
    · simp only [TaskController.supprimerListe, h]
      exact hinv
    · by_cases ho : liste.utilisateur_id = uid
      · simp only [TaskController.supprimerListe, h]
        rw [if_neg (by simp [ho])]
        intro x hx
        simp only [ListeRepository.supprimer, TacheRepository.dissocierListe,
          List.mem_map] at hx
        obtain ⟨y, hy, hxy⟩ := hx
        by_cases hid : (y.liste_id == some listeId) = true
        · rw [if_pos hid] at hxy
          subst hxy
          have hi := hinv y hy
          simpa [invariantCompletion] using hi
        · rw [if_neg hid] at hxy
          subst hxy
          exact hinv y hy
      · simp only [TaskController.supprimerListe, h]
        rw [if_pos (by simp [ho])]
        exact hinv

/-- C3 witness: on a one-task store satisfying the invariant, updating the
task status to TERMINEE yields completion timestamp 99, and updating it back
out of TERMINEE clears it, both evaluated concretely. -/
theorem C3_invariant_completion_witness :
    ∃ t', (TaskController.modifierTache
        ⟨[], [], [⟨1, "abc", none, .A_FAIRE, .MOYENNE, none, 0, none, 7, none⟩], []⟩
        7 1 99 ⟨none, none, some .TERMINEE, none, none, none⟩).1 = .succes (some t')
      ∧ t'.date_completion = some 99 := by
  obtain ⟨t', ht, hT, _⟩ :=
    (C3_invariant_completion
      ⟨[], [], [⟨1, "abc", none, .A_FAIRE, .MOYENNE, none, 0, none, 7, none⟩], []⟩
      (by decide) (by decide)).2.2.1
      7 1 99 ⟨none, none, some .TERMINEE, none, none, none⟩
      ⟨1, "abc", none, .A_FAIRE, .MOYENNE, none, 0, none, 7, none⟩ .TERMINEE
      (by decide) (by decide) (by decide) (by decide)
      (by intro l hl; cases hl)
  exact ⟨t', ht, hT rfl⟩

-- ==================== C4 ====================

/-- C4: StatusHistoryEntry bookkeeping. CreateTask never writes a history
row; a failed UpdateTask leaves the state unchanged; for an UpdateTask that
passes the checks, exactly one history row recording (previous status, new
status) is appended when the supplied status differs from the current one,
and none is appended when status is absent or equal to the current one. -/
theorem C4_historique (bd : BaseDeDonnees) (uid tacheId maintenant : Nat)
    (corps : CorpsModifierTache) :
    (∀ uid2 idFrais maintenant2 corpsC,
        ((TaskController.creerTache bd uid2 idFrais maintenant2 corpsC).2).historiques
          = bd.historiques)
    ∧ (∀ code, (TaskController.modifierTache bd uid tacheId maintenant corps).1
          = .echec code →
        (TaskController.modifierTache bd uid tacheId maintenant corps).2 = bd)
    ∧ (∀ tache, TacheRepository.trouverParId bd tacheId = some tache →
        tache.utilisateur_id = uid →
        (∀ l, corps.liste_id = some (some l) →
          ∃ liste, ListeRepository.trouverParId bd l = some liste
            ∧ liste.utilisateur_id = uid) →
        (∀ st, corps.statut = some st → st ≠ tache.statut →
          ((TaskController.modifierTache bd uid tacheId maintenant corps).2).historiques
            = bd.historiques ++
              [{ tache_id := tache.id, ancien_statut := tache.statut,
                 nouveau_statut := st, date_modification := maintenant }])
        ∧ ((corps.statut = none ∨ corps.statut = some tache.statut) →
          ((TaskController.modifierTache bd uid tacheId maintenant corps).2).historiques
            = bd.historiques)) := by
  refine ⟨?_, ?_, ?_⟩
  · intro uid2 idFrais maintenant2 corpsC
    simp only [TaskController.creerTache]
    split <;> rfl
  · rcases h : TacheRepository.trouverParId bd tacheId with _ | tache
    · intro code _
      simp only [TaskController.modifierTache, h]
    · by_cases ho : tache.utilisateur_id = uid
      · simp only [TaskController.modifierTache, h]
        rw [if_neg (by simp [ho])]
        split
        · intro code _
          rfl
        · rcases hst : corps.statut with _ | st <;> simp only [hst]
          · intro code hc
            simp at hc
          · split
            · intro code hc
              simp at hc
            · intro code hc
              simp at hc
      · simp only [TaskController.modifierTache, h]
        rw [if_pos (by simp [ho])]
        intro code _
        rfl
  · intro tache h ho hgate
    have hverif : (match corps.liste_id with
        | some (some listeId) =>
          match ListeRepository.trouverParId bd listeId with
          | none => false
          | some liste => liste.utilisateur_id == uid
        | _ => true) = true := by
      rcases hlid : corps.liste_id with _ | ol
      · rfl
      · rcases ol with _ | l
        · rfl
        · obtain ⟨liste, hliste, holiste⟩ := hgate l hlid
          simp [hliste, holiste]
    constructor
    · intro st hst hne
      simp only [TaskController.modifierTache, h, hst]
      rw [if_neg (by simp [ho])]
      rw [hverif]
      simp only [Bool.not_true, Bool.false_eq_true, if_false]
      rw [if_pos (by simp [hne])]
      rfl
    · rintro (hnone | heq)
      · simp only [TaskController.modifierTache, h, hnone]
        rw [if_neg (by simp [ho])]
        rw [hverif]
        simp only [Bool.not_true, Bool.false_eq_true, if_false]
        rfl
      · simp only [TaskController.modifierTache, h, heq]
        rw [if_neg (by simp [ho])]
        rw [hverif]
        simp only [Bool.not_true, Bool.false_eq_true, if_false]
        rw [if_neg (by simp)]
        rfl

/-- C4 witness: on a one-task store, a status change A_FAIRE to EN_COURS
appends exactly the entry (1, A_FAIRE, EN_COURS, 99); a PATCH supplying the
current status appends nothing. -/
theorem C4_historique_witness :
    ((TaskController.modifierTache
        ⟨[], [], [⟨1, "abc", none, .A_FAIRE, .MOYENNE, none, 0, none, 7, none⟩], []⟩
        7 1 99 ⟨none, none, some .EN_COURS, none, none, none⟩).2).historiques
      = [⟨1, .A_FAIRE, .EN_COURS, 99⟩]
    ∧ ((TaskController.modifierTache
        ⟨[], [], [⟨1, "abc", none, .A_FAIRE, .MOYENNE, none, 0, none, 7, none⟩], []⟩
        7 1 99 ⟨none, none, some .A_FAIRE, none, none, none⟩).2).historiques
      = [] := by
  constructor
  · have h := ((C4_historique
      ⟨[], [], [⟨1, "abc", none, .A_FAIRE, .MOYENNE, none, 0, none, 7, none⟩], []⟩
      7 1 99 ⟨none, none, some .EN_COURS, none, none, none⟩).2.2
      ⟨1, "abc", none, .A_FAIRE, .MOYENNE, none, 0, none, 7, none⟩
      (by decide) (by decide) (fun l hl => nomatch hl)).1 .EN_COURS rfl (by decide)
    rw [h]
    decide
  · have h := ((C4_historique
      ⟨[], [], [⟨1, "abc", none, .A_FAIRE, .MOYENNE, none, 0, none, 7, none⟩], []⟩
      7 1 99 ⟨none, none, some .A_FAIRE, none, none, none⟩).2.2
      ⟨1, "abc", none, .A_FAIRE, .MOYENNE, none, 0, none, 7, none⟩
      (by decide) (by decide) (fun l hl => nomatch hl)).2 (Or.inr rfl)
    rw [h]

-- ==================== C5 ====================

/-- C5 counterexample: CreateTask with the supplied description being the
empty string (accepted by the route validator, max-length 2000) stores null:
the created and returned task has description null, not the supplied empty
string, so the round-trip is not identical on that field. -/
theorem C5_contre_exemple :
    (TaskController.creerTache ⟨[], [], [], []⟩ 7 5 10
        ⟨"abc", some "", none, none, none, none⟩).1
      = .succes (some ⟨5, "abc", none, .A_FAIRE, .MOYENNE, none, 10, none, 7, none⟩)
    ∧ (⟨5, "abc", none, .A_FAIRE, .MOYENNE, none, 10, none, 7, none⟩ : Tache).description
        ≠ some "" := by
  decide

/-- C5 amended: CreateTask fails with ForbiddenListAccess exactly when the
supplied listId names no list of the owner; the result ignores any supplied
status (the created task always has status A_FAIRE and null completion
timestamp); and the created task, fetched back with GetTask by its owner,
carries exactly the supplied field values with the server-assigned id and
creation time — except that a supplied empty-string description is stored
and returned as null (the falsy or-else-null defaulting of the source), and
omitted description, priority, dueDate and listId take the defaults null,
MOYENNE, null, null. -/
theorem C5_creer_aller_retour (bd : BaseDeDonnees) (uid idFrais maintenant : Nat)
    (corps : CorpsCreerTache)
    (hfrais : ∀ x ∈ bd.taches, x.id ≠ idFrais) :
    ((TaskController.creerTache bd uid idFrais maintenant corps).1 = .echec 403
      ↔ ∃ l, corps.liste_id = some l
          ∧ ¬ ∃ liste, ListeRepository.trouverParId bd l = some liste
               ∧ liste.utilisateur_id = uid)
    ∧ (∀ st, TaskController.creerTache bd uid idFrais maintenant
          { corps with statut := st }
          = TaskController.creerTache bd uid idFrais maintenant corps)
    ∧ ((∀ l, corps.liste_id = some l →
          ∃ liste, ListeRepository.trouverParId bd l = some liste
            ∧ liste.utilisateur_id = uid) →
        ∃ t, TaskController.creerTache bd uid idFrais maintenant corps
              = (.succes (some t), { bd with taches := bd.taches ++ [t] })
          ∧ t.id = idFrais
          ∧ t.date_creation = maintenant
          ∧ t.statut = .A_FAIRE
          ∧ t.date_completion = none
          ∧ t.titre = corps.titre
          ∧ t.priorite = corps.priorite.getD .MOYENNE
          ∧ t.date_echeance = corps.date_echeance
          ∧ t.liste_id = corps.liste_id
          ∧ t.utilisateur_id = uid
          ∧ t.description = (match corps.description with
              | some d => if d == "" then none else some d
              | none => none)
          ∧ TaskController.detailTache { bd with taches := bd.taches ++ [t] } uid idFrais
              = .succes t) := by
  refine ⟨?_, ?_, ?_⟩
  · rcases hl : corps.liste_id with _ | l
    · simp [TaskController.creerTache, hl]
    · rcases hliste : ListeRepository.trouverParId bd l with _ | liste
      · simp [TaskController.creerTache, hl, hliste]
      · by_cases hol : liste.utilisateur_id = uid <;>
          simp [TaskController.creerTache, hl, hliste, hol, Ne.symm]
  · intro st
    rfl
  · intro hgate
    refine
      ⟨{ id := idFrais, titre := corps.titre,
         description :=
           (match corps.description with
            | some d => if d == "" then none else some d
            | none => none),
         statut := .A_FAIRE, priorite := corps.priorite.getD .MOYENNE,
         date_echeance := corps.date_echeance, date_creation := maintenant,
         date_completion := none, utilisateur_id := uid,
         liste_id := corps.liste_id }, ?_, rfl, rfl, rfl, rfl, rfl, rfl, rfl, rfl, rfl,
       rfl, ?_⟩
    · have hverif : (match corps.liste_id with
          | some listeId =>
            match ListeRepository.trouverParId bd listeId with
            | none => false
            | some liste => liste.utilisateur_id == uid
          | none => true) = true := by
        rcases hlid : corps.liste_id with _ | l
        · rfl
        · obtain ⟨liste, hliste, holiste⟩ := hgate l hlid
          simp [hliste, holiste]
      have hT : TacheRepository.trouverParId
          { bd with taches := bd.taches ++
            [{ id := idFrais, titre := corps.titre,
               description :=
                 (match corps.description with
                  | some d => if d == "" then none else some d
                  | none => none),
               statut := .A_FAIRE, priorite := corps.priorite.getD .MOYENNE,
               date_echeance := corps.date_echeance, date_creation := maintenant,
               date_completion := none, utilisateur_id := uid,
               liste_id := corps.liste_id }] } idFrais
          = some
            { id := idFrais, titre := corps.titre,
              description :=
                (match corps.description with
                 | some d => if d == "" then none else some d
                 | none => none),
              statut := .A_FAIRE, priorite := corps.priorite.getD .MOYENNE,
              date_echeance := corps.date_echeance, date_creation := maintenant,
              date_completion := none, utilisateur_id := uid,
              liste_id := corps.liste_id } :=
        trouver_apres_creer bd _ (fun x hx => hfrais x hx)
      simp only [TaskController.creerTache]
      rw [hverif]
      simp only [Bool.not_true, Bool.false_eq_true, if_false, TacheRepository.creer]
      rw [hT]
    · have hT : TacheRepository.trouverParId
          { bd with taches := bd.taches ++
            [{ id := idFrais, titre := corps.titre,
               description :=
                 (match corps.description with
                  | some d => if d == "" then none else some d
                  | none => none),
               statut := .A_FAIRE, priorite := corps.priorite.getD .MOYENNE,
               date_echeance := corps.date_echeance, date_creation := maintenant,
               date_completion := none, utilisateur_id := uid,
               liste_id := corps.liste_id }] } idFrais
          = some
            { id := idFrais, titre := corps.titre,
              description :=
                (match corps.description with
                 | some d => if d == "" then none else some d
                 | none => none),
              statut := .A_FAIRE, priorite := corps.priorite.getD .MOYENNE,
              date_echeance := corps.date_echeance, date_creation := maintenant,
              date_completion := none, utilisateur_id := uid,
              liste_id := corps.liste_id } :=
        trouver_apres_creer bd _ (fun x hx => hfrais x hx)
      simp only [TaskController.detailTache, hT]
      rw [if_neg (by simp)]

/-- C5 witness: with a stored list owned by user 9, CreateTask by user 7
referencing that list is rejected with 403, obtained by instantiating the
round-trip theorem at that concrete state. -/
theorem C5_creer_aller_retour_witness :
    (TaskController.creerTache ⟨[], [⟨4, "W", "#FF0000", 0, 9⟩], [], []⟩ 7 5 10
        ⟨"abc", none, none, none, some 4, none⟩).1 = .echec 403 := by
  have h := (C5_creer_aller_retour ⟨[], [⟨4, "W", "#FF0000", 0, 9⟩], [], []⟩ 7 5 10
      ⟨"abc", none, none, none, some 4, none⟩ (fun x hx => nomatch hx)).1
  exact h.mpr ⟨4, rfl, by decide⟩

-- ==================== C7 ====================

/-- C7: DeleteList on an owned, existing list dissociates and keeps every
task: the resulting task table is exactly the old one with liste_id cleared
on the tasks that referenced the list (same length — no task is deleted),
every referencing task survives with only liste_id set to null and every
other task survives unchanged, the list row itself is gone, and the other
tables are untouched. -/
theorem C7_supprimer_liste_dissocie (bd : BaseDeDonnees) (uid listeId : Nat)
    (liste : Liste) (hl : ListeRepository.trouverParId bd listeId = some liste)
    (ho : liste.utilisateur_id = uid) :
    (TaskController.supprimerListe bd uid listeId).1 = .succes ()
    ∧ ListeRepository.trouverParId (TaskController.supprimerListe bd uid listeId).2 listeId
        = none
    ∧ (TaskController.supprimerListe bd uid listeId).2.taches.length = bd.taches.length
    ∧ (TaskController.supprimerListe bd uid listeId).2.taches
        = bd.taches.map (fun t =>
            if t.liste_id == some listeId then { t with liste_id := none } else t)
    ∧ (∀ t ∈ bd.taches, t.liste_id = some listeId →
        { t with liste_id := none }
          ∈ (TaskController.supprimerListe bd uid listeId).2.taches)
    ∧ (∀ t ∈ bd.taches, t.liste_id ≠ some listeId →
        t ∈ (TaskController.supprimerListe bd uid listeId).2.taches)
    ∧ (TaskController.supprimerListe bd uid listeId).2.listes
        = bd.listes.filter (fun l => !(l.id == listeId))
    ∧ (TaskController.supprimerListe bd uid listeId).2.historiques = bd.historiques
    ∧ (TaskController.supprimerListe bd uid listeId).2.utilisateurs = bd.utilisateurs := by
  have hred : TaskController.supprimerListe bd uid listeId
      = (.succes (), ListeRepository.supprimer (TacheRepository.dissocierListe bd listeId)
          listeId) := by
    simp only [TaskController.supprimerListe, hl]
    rw [if_neg (by simp [ho])]
  rw [hred]
  refine ⟨rfl, ?_, ?_, rfl, ?_, ?_, rfl, rfl, rfl⟩
  · unfold ListeRepository.trouverParId ListeRepository.supprimer
    refine List.find?_eq_none.mpr ?_
    intro x hx
    have := (List.mem_filter.mp hx).2
    simpa using this
  · simp [ListeRepository.supprimer, TacheRepository.dissocierListe]
  · intro t ht hlid
    have h2 : (fun t => if t.liste_id == some listeId then { t with liste_id := none } else t) t
        ∈ (TacheRepository.dissocierListe bd listeId).taches :=
      List.mem_map_of_mem _ ht
    simpa [ListeRepository.supprimer, hlid] using h2
  · intro t ht hlid
    have h2 : (fun t => if t.liste_id == some listeId then { t with liste_id := none } else t) t
        ∈ (TacheRepository.dissocierListe bd listeId).taches :=
      List.mem_map_of_mem _ ht
    simpa [ListeRepository.supprimer, hlid] using h2

/-- C7 witness: deleting list 4 owned by user 7 from a store with one task
in the list and one outside leaves both tasks present, the first one
dissociated, and removes the list row. -/
theorem C7_supprimer_liste_dissocie_witness :
    (TaskController.supprimerListe
        ⟨[], [⟨4, "W", "#FF0000", 0, 7⟩],
         [⟨1, "abc", none, .A_FAIRE, .MOYENNE, none, 0, none, 7, some 4⟩,
          ⟨2, "def", none, .A_FAIRE, .MOYENNE, none, 1, none, 7, none⟩], []⟩ 7 4).2.taches
      = [⟨1, "abc", none, .A_FAIRE, .MOYENNE, none, 0, none, 7, none⟩,
         ⟨2, "def", none, .A_FAIRE, .MOYENNE, none, 1, none, 7, none⟩]
    ∧ ListeRepository.trouverParId
        (TaskController.supprimerListe
          ⟨[], [⟨4, "W", "#FF0000", 0, 7⟩],
           [⟨1, "abc", none, .A_FAIRE, .MOYENNE, none, 0, none, 7, some 4⟩,
            ⟨2, "def", none, .A_FAIRE, .MOYENNE, none, 1, none, 7, none⟩], []⟩ 7 4).2 4
      = none := by
  have h := C7_supprimer_liste_dissocie
    ⟨[], [⟨4, "W", "#FF0000", 0, 7⟩],
     [⟨1, "abc", none, .A_FAIRE, .MOYENNE, none, 0, none, 7, some 4⟩,
      ⟨2, "def", none, .A_FAIRE, .MOYENNE, none, 1, none, 7, none⟩], []⟩ 7 4
    ⟨4, "W", "#FF0000", 0, 7⟩ (by decide) (by decide)
  refine ⟨?_, h.2.1⟩
  rw [h.2.2.2.1]
  decide

-- ==================== C8 ====================

/-- Rephrasing of the claimed ListTasks ordering between two rows: a row
with a due date precedes every row without one; among rows with due dates
the due date ascends; and within a tie (equal due dates, or the whole
null-due-date group) the creation time descends. -/
def ordreReclame (a b : Tache) : Prop :=
  match a.date_echeance, b.date_echeance with
  | some da, some db => da < db ∨ (da = db ∧ b.date_creation ≤ a.date_creation)
  | some _, none => True
  | none, some _ => False
  | none, none => b.date_creation ≤ a.date_creation

/-- The ORDER BY preorder of the repository implies the claimed ordering. -/
theorem leTri_ordreReclame (a b : Tache) (h : leTri a b) : ordreReclame a b := by
  unfold leTri at h
  unfold ordreReclame
  rcases ha : a.date_echeance with _ | da <;> rcases hb : b.date_echeance with _ | db <;>
      simp only [nulEcheance, valEcheance, ha, hb] at h ⊢ <;>
    first
      | trivial
      | omega

/-- C8: every page of every ListTasks result is sorted in the claimed order:
tasks with a due date before tasks without one, then ascending due date,
then (for ties, including the whole null-due-date group) descending creation
time. -/
theorem C8_ordre_liste (bd : BaseDeDonnees) (uid : Nat) (pageQ limitQ : Option Nat)
    (statut : Option Statut) (priorite : Option Priorite) (listeId : Option Nat) :
    List.Pairwise ordreReclame
      (TaskController.listerTaches bd uid pageQ limitQ statut priorite listeId).taches := by
  simp only [TaskController.listerTaches, TacheRepository.listerParUtilisateur]
  exact List.Pairwise.sublist
    ((List.take_sublist _ _).trans (List.drop_sublist _ _))
    ((List.sorted_insertionSort leTri _).imp (fun h => leTri_ordreReclame _ _ h))

-- ==================== C9 ====================

/-- The parsed page and limit query values fall back to a positive default
on absence or zero, so the effective limit is always at least 1. -/
theorem parDefaut_pos (q : Option Nat) (d : Nat) (hd : 1 ≤ d) : 1 ≤ parDefaut q d := by
  rcases q with _ | n
  · exact hd
  · simp only [parDefaut]
    split
    · exact hd
    · omega

/-- Ceiling division covers: the count is at most totalPages times limit. -/
theorem ceil_mul_ge (T L : Nat) (hL : 1 ≤ L) : T ≤ ((T + L - 1) / L) * L := by
  have h1 := Nat.div_add_mod (T + L - 1) L
  have h2 : (T + L - 1) % L < L := Nat.mod_lt _ (by omega)
  rw [Nat.mul_comm]
  generalize hM : L * ((T + L - 1) / L) = M at h1 ⊢
  omega

/-- Ceiling division is least: any page count covering the total is at least
totalPages. -/
theorem ceil_le_of_le (T L n : Nat) (hL : 1 ≤ L) (h : T ≤ n * L) :
    (T + L - 1) / L ≤ n := by
  rw [Nat.div_le_iff_le_mul_add_pred (by omega)]
  generalize hM : n * L = M at h
  rw [Nat.mul_comm] at hM
  rw [hM]
  omega

/-- C9: the ListTasks response computes its status counters (total and the
three per-status counts) over all tasks owned by the requester, identically
for every choice of the status, priority and list filters, while the
pagination metadata counts exactly the filtered set, and totalPages is the
least number of pages of size limit covering that count (the ceiling of
total over limit). -/
theorem C9_compteurs_pagination (bd : BaseDeDonnees) (uid : Nat)
    (pageQ limitQ : Option Nat) (statut : Option Statut) (priorite : Option Priorite)
    (listeId : Option Nat) :
    (TaskController.listerTaches bd uid pageQ limitQ statut priorite listeId).compteurs.total
      = (bd.taches.filter (fun t => t.utilisateur_id == uid)).length
    ∧ (TaskController.listerTaches bd uid pageQ limitQ statut priorite listeId).compteurs.A_FAIRE
      = bd.taches.countP (fun t => decide (t.statut = .A_FAIRE) && t.utilisateur_id == uid)
    ∧ (TaskController.listerTaches bd uid pageQ limitQ statut priorite listeId).compteurs.EN_COURS
      = bd.taches.countP (fun t => decide (t.statut = .EN_COURS) && t.utilisateur_id == uid)
    ∧ (TaskController.listerTaches bd uid pageQ limitQ statut priorite listeId).compteurs.TERMINEE
      = bd.taches.countP (fun t => decide (t.statut = .TERMINEE) && t.utilisateur_id == uid)
    ∧ (∀ pageQ2 limitQ2 statut2 priorite2 listeId2,
        (TaskController.listerTaches bd uid pageQ2 limitQ2 statut2 priorite2 listeId2).compteurs
          = (TaskController.listerTaches bd uid pageQ limitQ statut priorite listeId).compteurs)
    ∧ (TaskController.listerTaches bd uid pageQ limitQ statut priorite listeId).pagination.total
      = (bd.taches.filter (correspondFiltres uid statut priorite listeId)).length
    ∧ (TaskController.listerTaches bd uid pageQ limitQ statut priorite listeId).pagination.total
      ≤ (TaskController.listerTaches bd uid pageQ limitQ statut priorite listeId).pagination.totalPages
        * (TaskController.listerTaches bd uid pageQ limitQ statut priorite listeId).pagination.limit
    ∧ (∀ n, (TaskController.listerTaches bd uid pageQ limitQ statut priorite listeId).pagination.total
          ≤ n * (TaskController.listerTaches bd uid pageQ limitQ statut priorite listeId).pagination.limit →
        (TaskController.listerTaches bd uid pageQ limitQ statut priorite listeId).pagination.totalPages
          ≤ n) := by
  have hL : 1 ≤ parDefaut limitQ appConfig.defaultPageLimit :=
    parDefaut_pos limitQ appConfig.defaultPageLimit (by decide)
  refine ⟨rfl, ?_, ?_, ?_, fun _ _ _ _ _ => rfl, rfl, ?_, ?_⟩
  · simp only [TaskController.listerTaches, TacheRepository.compterParStatut,
      List.countP_filter]
  · simp only [TaskController.listerTaches, TacheRepository.compterParStatut,
      List.countP_filter]
  · simp only [TaskController.listerTaches, TacheRepository.compterParStatut,
      List.countP_filter]
  · exact ceil_mul_ge
      (bd.taches.filter (correspondFiltres uid statut priorite listeId)).length
      (parDefaut limitQ appConfig.defaultPageLimit) hL
  · intro n h
    exact ceil_le_of_le
      (bd.taches.filter (correspondFiltres uid statut priorite listeId)).length
      (parDefaut limitQ appConfig.defaultPageLimit) n hL h

/-- C9 witness: on a store with three owned tasks of mixed statuses plus a
foreign task, a filtered, paginated query still reports counters over the
whole owned set and pagination over the filtered set. -/
theorem C9_compteurs_pagination_witness :
    (TaskController.listerTaches
        ⟨[], [],
         [⟨1, "a", none, .A_FAIRE, .MOYENNE, none, 0, none, 7, none⟩,
          ⟨2, "b", none, .TERMINEE, .MOYENNE, none, 1, none, 7, none⟩,
          ⟨3, "c", none, .TERMINEE, .MOYENNE, none, 2, none, 7, none⟩,
          ⟨4, "d", none, .A_FAIRE, .MOYENNE, none, 3, none, 9, none⟩], []⟩
        7 (some 1) (some 2) (some .TERMINEE) none none).compteurs
      = ⟨3, 1, 0, 2⟩
    ∧ (TaskController.listerTaches
        ⟨[], [],
         [⟨1, "a", none, .A_FAIRE, .MOYENNE, none, 0, none, 7, none⟩,
          ⟨2, "b", none, .TERMINEE, .MOYENNE, none, 1, none, 7, none⟩,
          ⟨3, "c", none, .TERMINEE, .MOYENNE, none, 2, none, 7, none⟩,
          ⟨4, "d", none, .A_FAIRE, .MOYENNE, none, 3, none, 9, none⟩], []⟩
        7 (some 1) (some 2) (some .TERMINEE) none none).pagination
      = ⟨1, 2, 2, 1⟩ := by
  have h := C9_compteurs_pagination
    ⟨[], [],
     [⟨1, "a", none, .A_FAIRE, .MOYENNE, none, 0, none, 7, none⟩,
      ⟨2, "b", none, .TERMINEE, .MOYENNE, none, 1, none, 7, none⟩,
      ⟨3, "c", none, .TERMINEE, .MOYENNE, none, 2, none, 7, none⟩,
      ⟨4, "d", none, .A_FAIRE, .MOYENNE, none, 3, none, 9, none⟩], []⟩
    7 (some 1) (some 2) (some .TERMINEE) none none
  have h2 := h.2.2.2.2.1 none none none none none
  constructor
  · rw [← h2]
    decide
  · decide

-- ==================== C10 ====================

/-- Unfolding of the LIKE matcher on the empty pattern. -/
theorem correspondMotif_nil (txt : List Char) :
    correspondMotif [] txt = txt.isEmpty := by
  conv_lhs => rw [correspondMotif.eq_def]

/-- Unfolding of the LIKE matcher on a non-empty pattern. -/
theorem correspondMotif_cons (c : Char) (motif txt : List Char) :
    correspondMotif (c :: motif) txt =
      if c = '%' then (txt.tails).any (fun s => correspondMotif motif s)
      else if c = '_' then
        (match txt with
         | [] => false
         | _ :: reste => correspondMotif motif reste)
      else if c = '\\' then
        (match motif with
         | [] => false
         | c2 :: motif2 =>
           match txt with
           | [] => false
           | t :: reste => c2 == t && correspondMotif motif2 reste)
      else
        (match txt with
         | [] => false
         | t :: reste => c == t && correspondMotif motif reste) := by
  conv_lhs => rw [correspondMotif.eq_def]

/-- A wildcard-free literal followed by a closing percent matches a text
exactly when the literal is a prefix of the text. -/
theorem correspond_litteral : ∀ (lit : List Char), sansJoker lit = true →
    ∀ txt, correspondMotif (lit ++ ['%']) txt = lit.isPrefixOf txt := by
  intro lit
  induction lit with
  | nil =>
    intro _ txt
    rw [List.nil_append, correspondMotif_cons, if_pos rfl]
    have h0 : ([] : List Char) ∈ txt.tails := by
      rw [List.mem_tails]
      exact List.nil_suffix
    have hpr : ([] : List Char).isPrefixOf txt = true := by cases txt <;> rfl
    rw [hpr]
    simp only [correspondMotif_nil]
    exact List.any_eq_true.mpr ⟨[], h0, rfl⟩
  | cons c lit ih =>
    intro hj txt
    simp only [sansJoker, List.all_cons, Bool.and_eq_true, Bool.not_eq_true',
      beq_eq_false_iff_ne, ne_eq] at hj
    obtain ⟨⟨⟨h1, h2⟩, h3⟩, hj2⟩ := hj
    rw [List.cons_append, correspondMotif_cons, if_neg h1, if_neg h2, if_neg h3]
    cases txt with
    | nil => rfl
    | cons t ts =>
      have hj2b : sansJoker lit = true := by
        simp only [sansJoker, Bool.and_eq_true, Bool.not_eq_true',
          beq_eq_false_iff_ne, ne_eq]
        exact hj2
      show (c == t && correspondMotif (lit ++ ['%']) ts)
          = (c :: lit).isPrefixOf (t :: ts)
      rw [ih hj2b ts]
      rfl

/-- The full pattern percent ++ literal ++ percent of the repository, for a
wildcard-free literal, matches a text exactly when the literal occurs in it:
the ILIKE condition and plain containment agree on such keywords. -/
theorem correspond_pour_cent (lit : List Char) (hj : sansJoker lit = true) :
    ∀ txt, correspondMotif ('%' :: (lit ++ ['%'])) txt = contientListe lit txt := by
  intro txt
  induction txt with
  | nil =>
    rw [correspondMotif_cons, if_pos rfl]
    have ht : ([] : List Char).tails = [[]] := rfl
    rw [ht]
    simp only [List.any_cons, List.any_nil, Bool.or_false]
    rw [correspond_litteral lit hj []]
    cases lit <;> rfl
  | cons t ts ih =>
    rw [correspondMotif_cons, if_pos rfl, List.tails_cons, List.any_cons]
    rw [correspond_litteral lit hj (t :: ts)]
    have h2 : (ts.tails).any (fun s => correspondMotif (lit ++ ['%']) s)
        = contientListe lit ts := by
      rw [← ih, correspondMotif_cons, if_pos rfl]
    rw [h2]
    rfl

/-- C10 counterexample: searching for the keyword consisting of the letter a
followed by a space returns the task titled ab, although neither its title
nor its (null) description contains that keyword — the controller trims the
keyword before matching; and even after trimming, the keyword is a LIKE
pattern, not a literal: the keyword a-underscore-c returns the task titled
abc, which does not contain it. So the result set is not exactly the tasks
containing the supplied keyword. -/
theorem C10_contre_exemple :
    (TaskController.rechercher
        ⟨[], [], [⟨1, "ab", none, .A_FAIRE, .MOYENNE, none, 0, none, 7, none⟩], []⟩
        7 (some "a ")
      = .succes [⟨1, "ab", none, .A_FAIRE, .MOYENNE, none, 0, none, 7, none⟩]
    ∧ contientInsensible "ab" "a " = false)
    ∧ (TaskController.rechercher
        ⟨[], [], [⟨1, "abc", none, .A_FAIRE, .MOYENNE, none, 0, none, 7, none⟩], []⟩
        7 (some "a_c")
      = .succes [⟨1, "abc", none, .A_FAIRE, .MOYENNE, none, 0, none, 7, none⟩]
    ∧ contientInsensible "abc" "a_c" = false) := by
  decide

/-- C10 amended: Search fails with InvalidInput 400 exactly when the keyword
is absent, empty or whitespace-only; otherwise it returns exactly the tasks
owned by the requester whose title or non-null description matches the
whitespace-trimmed keyword as a case-insensitive SQL LIKE substring pattern
(percent-keyword-percent, in which a percent sign and an underscore inside
the keyword act as wildcards and a backslash escapes the next character) —
for a trimmed keyword free of those three metacharacters this is exactly
case-insensitive substring containment of the trimmed keyword — ordered by
descending creation time; the successful response data is the task list
alone, with no counters and no pagination. -/
theorem C10_recherche (bd : BaseDeDonnees) (uid : Nat) (q : Option String) :
    (TaskController.rechercher bd uid q = .echec 400
      ↔ (q = none ∨ ∃ qs, q = some qs ∧ rognerChaine qs = ""))
    ∧ (∀ qs, q = some qs → rognerChaine qs ≠ "" →
        ∃ ts, TaskController.rechercher bd uid q = .succes ts
          ∧ (∀ t, t ∈ ts ↔ t ∈ bd.taches ∧ t.utilisateur_id = uid
              ∧ (correspondILike t.titre (rognerChaine qs) = true
                 ∨ ∃ d, t.description = some d
                     ∧ correspondILike d (rognerChaine qs) = true))
          ∧ List.Pairwise ordreCreationDesc ts)
    ∧ (∀ texte motif, sansJoker (minusculeChaine motif).data = true →
        correspondILike texte motif = contientInsensible texte motif) := by
  refine ⟨?_, ?_, ?_⟩
  case refine_3 =>
    intro texte motif hj
    unfold correspondILike contientInsensible
    exact correspond_pour_cent _ hj _
  · rcases q with _ | qs
    · simp [TaskController.rechercher]
    · simp only [TaskController.rechercher]
      split
      case isTrue hc =>
        simp only [Option.some.injEq]
        constructor
        · intro _
          refine Or.inr ⟨qs, rfl, ?_⟩
          rcases Bool.or_eq_true_iff.mp hc with h | h
          · rw [beq_iff_eq] at h
            rw [h]
            rfl
          · rwa [beq_iff_eq] at h
        · intro _
          trivial
      case isFalse hc =>
        constructor
        · intro h
          exact absurd h (by simp)
        · rintro (h | ⟨qs2, hq, hr⟩)
          · exact absurd h (by simp)
          · rw [Option.some.injEq] at hq
            subst hq
            exfalso
            exact hc (by simp [hr])
  · rintro qs rfl hne
    simp only [TaskController.rechercher]
    rw [if_neg (by
      intro hc
      rcases Bool.or_eq_true_iff.mp hc with h | h
      · rw [beq_iff_eq] at h
        subst h
        exact hne rfl
      · rw [beq_iff_eq] at h
        exact hne h)]
    refine ⟨_, rfl, ?_, List.sorted_insertionSort ordreCreationDesc _⟩
    intro t
    rw [TacheRepository.rechercher, List.mem_insertionSort, List.mem_filter]
    rcases hd : t.description with _ | d <;>
      simp [hd, Bool.and_eq_true, Bool.or_eq_true, beq_iff_eq]

/-- C10 witness: a whitespace-only keyword is rejected with 400, obtained by
instantiating the search theorem at a concrete store and query. -/
theorem C10_recherche_witness :
    TaskController.rechercher ⟨[], [], [], []⟩ 7 (some " ") = .echec 400 :=
  (C10_recherche ⟨[], [], [], []⟩ 7 (some " ")).1.mpr (Or.inr ⟨" ", rfl, by decide⟩)

end GestionTaches
